import Mathlib

/-!
# apm-ibank-core

A verification development for `pkg/core/api.go` running over the SQLite schema and
statements of `pkg/queries/sql.go`.

Modelling conventions.

* The database is a value of type `Store`: one list of rows per table, kept in rowid order
  (the order in which SQLite scans a rowid table).  An operation of `api.go` is a function
  that takes its Go arguments and the store and returns the store after the call together
  with the Go results.  A Go `error` is an `Option Error` (`none` is `nil`).
* Calls run one after the other on one database that every connection of the pool sees (a
  database file, as in the tests of the payment and the transfers, which query through `db`
  while their `tx` is open).
* A transaction (`db.Begin`, deferred `tx.Rollback` / `tx.Commit`) is modelled by returning
  either the store the statements produced (commit) or the store the call started from
  (rollback).  Failures of the environment (`Begin`, `Commit`, closing a cursor, a lost
  connection) are not modelled.
* The current time enters the payment and the transfers as the argument `dateAndTime`, the
  text `time.Now()` is formatted to.
* `int64` values are integers; the one place where Go arithmetic can leave the `int64` range
  (`balance * 100` in `AddAccount`) wraps explicitly with `wrapInt64`.
* A `float64` value and the value of a numeric column are a `Num`: a rational (every
  `int64` and every finite `float64` is one), an infinity or NaN.  Go and SQLite compute
  with `float64` operands in IEEE 754 binary64, round to nearest, ties to even:
  `Num.round` is that rounding, `Num.mul`, `Num.add` and `Num.div` are the rounded
  operations, and `Num.toFloat64` is the conversion of a stored number to `float64`.  Zero
  has no sign here: comparisons do not tell the two zeros apart, the program divides by 100
  only, and SQLite stores a zero in a column with INTEGER affinity as the integer 0.
  SQLite binds a NaN as NULL and every numeric column is `NOT NULL`.  A Go argument of
  type `float64` is taken as any `Num`, so a statement for every amount covers every
  `float64` amount; the amounts of the concrete calls are `float64` values.
* Every statement of `sql.go` that the modelled operations execute is a definition of the
  same name; constraints of the DDL (`UNIQUE`, `PRIMARY KEY`, `CHECK`, `AUTOINCREMENT`) are
  checked by the statements that insert or update rows.  Foreign keys are declared by the DDL
  but SQLite does not enforce them unless asked to, and `api.go` never asks.
-/

namespace IBank

/-! ## Errors -/

/-- The error values of `api.go` (`Err...`, `QueryError`, `DbError`), `sql.ErrNoRows`, and
the SQLite failures a statement of `sql.go` can raise. -/
inductive Error where
  | ErrInvalidPass
  | ErrLoginExist
  | ErrPhoneNumberExist
  | ErrPhoneNumberNotExist
  | ErrServiceExist
  | ErrATMExist
  | ErrClientIsLocked
  | ErrServiceNotExist
  | ErrNoRows
  | ErrConstraintUnique
  | ErrConstraintCheck
  | ErrConstraintNotNull
  | ErrFull
  | QueryError (query : String) (err : Error)
  | DbError (err : Error)
  deriving DecidableEq

/-- The constructor function `queryError` of `api.go`. -/
def queryError (query : String) (err : Error) : Error := Error.QueryError query err

/-- The constructor function `dbError` of `api.go`. -/
def dbError (err : Error) : Error := Error.DbError err

/-! ## Constants of `api.go` -/

def Transfer : String := "transfer"

def Service : String := "service"

def Active : String := "active"

def Locked : String := "locked"

/-! ## Machine integers -/

def maxInt64 : Int := 2 ^ 63 - 1

def minInt64 : Int := -(2 ^ 63)

/-- Membership in the range of Go's `int64`. -/
def isInt64 (x : Int) : Prop := minInt64 ≤ x ∧ x ≤ maxInt64

instance (x : Int) : Decidable (isInt64 x) := by
  unfold isInt64; infer_instance

/-- Two's-complement reduction of an integer to the `int64` range: the value Go computes
for an `int64` arithmetic result. -/
def wrapInt64 (x : Int) : Int := (x + 2 ^ 63) % 2 ^ 64 - 2 ^ 63

/-! ## Numbers -/

/-- A Go `float64`, or the value of a column with INTEGER affinity (an integer, or a
`float64` that SQLite keeps with REAL storage class): a rational, an infinity, or NaN. -/
inductive Num where
  | fin (q : ℚ)
  | posInf
  | negInf
  | nan
  deriving DecidableEq

instance (n : Nat) : OfNat Num n := ⟨Num.fin n⟩

/-- The power `2 ^ k` for an integer exponent. -/
def pow2 (k : Int) : ℚ :=
  if 0 ≤ k then ((2 ^ k.toNat : Nat) : ℚ) else 1 / ((2 ^ (-k).toNat : Nat) : ℚ)

/-- The position of the highest bit of `n`, found by halving at most `fuel` times. -/
def log2Aux : Nat → Nat → Nat
  | 0, _ => 0
  | fuel + 1, n => if n < 2 then 0 else log2Aux fuel (n / 2) + 1

/-- The position of the highest bit of `n` (0 for 0 and 1). -/
def log2 (n : Nat) : Nat := log2Aux n n

/-- The rationals that are binary64 values: the denominator is a power of two not above
`2 ^ 1074`, the numerator has at most 53 significant bits, and the value is below
`2 ^ 1024`. -/
def isFloat64 (q : ℚ) : Prop :=
  q.den = 2 ^ log2 q.den ∧ log2 q.den ≤ 1074 ∧
  2 ^ (log2 q.num.natAbs - 52) ∣ q.num.natAbs ∧
  log2 q.num.natAbs ≤ 1023 + log2 q.den

instance (q : ℚ) : Decidable (isFloat64 q) := by
  unfold isFloat64; infer_instance

/-- The integer nearest to a rational that is not negative, the even one of two that are
equally near. -/
def roundHalfEven (x : ℚ) : Nat :=
  let n := x.num.toNat
  let fl := n / x.den
  let r := n % x.den
  if 2 * r < x.den then fl
  else if x.den < 2 * r then fl + 1
  else if fl % 2 = 0 then fl else fl + 1

/-- The binary64 value nearest to a positive rational `q`: with `2 ^ e ≤ q < 2 ^ (e + 1)`
the values near `q` are the multiples of `2 ^ (e - 52)` (of `2 ^ (-1074)` for the subnormal
numbers); a result of `2 ^ 1024` or more is the infinity. -/
def nearestFloat64 (q : ℚ) : Num :=
  let e0 : Int := (log2 q.num.natAbs : Int) - (log2 q.den : Int)
  let e : Int := if pow2 e0 ≤ q then e0 else e0 - 1
  let k : Int := max (e - 52) (-1074)
  let m := roundHalfEven (q / pow2 k)
  if pow2 1024 ≤ (m : ℚ) * pow2 k then Num.posInf else Num.fin ((m : ℚ) * pow2 k)

/-- The number with the sign changed. -/
def Num.neg : Num → Num
  | fin q => fin (-q)
  | posInf => negInf
  | negInf => posInf
  | nan => nan

/-- Rounding of a rational to binary64, to nearest, ties to even. -/
def Num.round (q : ℚ) : Num :=
  if isFloat64 q then Num.fin q
  else if 0 < q then nearestFloat64 q
  else (nearestFloat64 (-q)).neg

/-- The conversion of a number to `float64`: what SQLite does to an INTEGER operand of an
operation with a REAL operand, and what `Scan` does for a `*float64` destination. -/
def Num.toFloat64 : Num → Num
  | fin q => Num.round q
  | x => x

/-- The `float64` product. -/
def Num.mul : Num → Num → Num
  | fin a, fin b => Num.round (a * b)
  | nan, _ => nan
  | _, nan => nan
  | posInf, fin b => if 0 < b then posInf else if b < 0 then negInf else nan
  | negInf, fin b => if 0 < b then negInf else if b < 0 then posInf else nan
  | fin a, posInf => if 0 < a then posInf else if a < 0 then negInf else nan
  | fin a, negInf => if 0 < a then negInf else if a < 0 then posInf else nan
  | posInf, posInf => posInf
  | negInf, negInf => posInf
  | posInf, negInf => negInf
  | negInf, posInf => negInf

/-- The `float64` sum. -/
def Num.add : Num → Num → Num
  | fin a, fin b => Num.round (a + b)
  | nan, _ => nan
  | _, nan => nan
  | posInf, negInf => nan
  | negInf, posInf => nan
  | posInf, _ => posInf
  | _, posInf => posInf
  | negInf, _ => negInf
  | _, negInf => negInf

/-- The `float64` quotient. -/
def Num.div : Num → Num → Num
  | fin a, fin b =>
    if b = 0 then (if 0 < a then posInf else if a < 0 then negInf else nan)
    else Num.round (a / b)
  | nan, _ => nan
  | _, nan => nan
  | fin _, posInf => fin 0
  | fin _, negInf => fin 0
  | posInf, fin b => if 0 ≤ b then posInf else negInf
  | negInf, fin b => if 0 ≤ b then negInf else posInf
  | posInf, posInf => nan
  | posInf, negInf => nan
  | negInf, posInf => nan
  | negInf, negInf => nan

/-- The order of numbers; NaN is in no relation. -/
def Num.le : Num → Num → Prop
  | fin a, fin b => a ≤ b
  | negInf, fin _ => True
  | negInf, posInf => True
  | negInf, negInf => True
  | fin _, posInf => True
  | posInf, posInf => True
  | _, _ => False

/-- The strict order of numbers; NaN is in no relation. -/
def Num.lt : Num → Num → Prop
  | fin a, fin b => a < b
  | negInf, fin _ => True
  | negInf, posInf => True
  | fin _, posInf => True
  | _, _ => False

instance : LE Num := ⟨Num.le⟩

instance : LT Num := ⟨Num.lt⟩

instance (a b : Num) : Decidable (a ≤ b) := by
  show Decidable (Num.le a b)
  cases a <;> cases b <;> unfold Num.le <;> infer_instance

instance (a b : Num) : Decidable (a < b) := by
  show Decidable (Num.lt a b)
  cases a <;> cases b <;> unfold Num.lt <;> infer_instance

/-- The sum of two numbers, not rounded. -/
def Num.plus : Num → Num → Num
  | fin a, fin b => fin (a + b)
  | nan, _ => nan
  | _, nan => nan
  | posInf, negInf => nan
  | negInf, posInf => nan
  | posInf, _ => posInf
  | _, posInf => posInf
  | negInf, _ => negInf
  | _, negInf => negInf

/-! ## Rows of the five tables (the DDL of `sql.go`) -/

/-- A row of `clients`. -/
structure ClientRow where
  id : Int
  name : String
  login : String
  password : String
  phone_number : Int
  status : String
  deriving DecidableEq

/-- A row of `accounts`.  `balance` has INTEGER affinity: it holds an integer, or a
`float64` that is not one, with REAL storage class. -/
structure AccountRow where
  id : Int
  client_id : Int
  balance : Num
  deriving DecidableEq

/-- A row of `journal`; `type` is the Lean field `kind`. -/
structure JournalRow where
  id : Int
  date : String
  client_id : Int
  kind : String
  transferred_to : String
  amount : Num
  deriving DecidableEq

/-- A row of `services`. -/
structure ServiceRow where
  id : Int
  name : String
  deriving DecidableEq

/-- A row of `atms`. -/
structure AtmRow where
  id : Int
  name : String
  location : String
  deriving DecidableEq

/-- The database, plus the number of transactions that were begun and never committed or
rolled back (`openTx`).  `clientsSeq`, `accountsSeq` and `atmsSeq` are the
`sqlite_sequence` entries of the three tables that take rows with explicit ids (the
imports): the largest rowid a statement has named or given so far, which can be larger than
every rowid present.  `journal` and `services` only ever get the next rowid, so their
largest rowid ever used is the largest rowid present. -/
structure Store where
  clients : List ClientRow
  accounts : List AccountRow
  journal : List JournalRow
  services : List ServiceRow
  atms : List AtmRow
  clientsSeq : Int
  accountsSeq : Int
  atmsSeq : Int
  openTx : Nat
  deriving DecidableEq

/-- The store right after `Init` on a new database: five empty tables. -/
def emptyStore : Store :=
  { clients := [], accounts := [], journal := [], services := [], atms := [],
    clientsSeq := 0, accountsSeq := 0, atmsSeq := 0, openTx := 0 }

/-! ## Go-side record types of `api.go` -/

structure Account where
  Id : Int
  Balance : Num
  deriving DecidableEq

structure AccountWithClientId where
  Id : Int
  ClientId : Int
  Balance : Num
  deriving DecidableEq

structure ATM where
  Id : Int
  Name : String
  Location : String
  deriving DecidableEq

structure Client where
  Id : Int
  Name : String
  Login : String
  Password : String
  PhoneNumber : Int
  Status : String
  deriving DecidableEq

/-- The Go struct `Journal`; its field `Type` is the Lean field `Kind`. -/
structure Journal where
  Id : Int
  Date : String
  Kind : String
  TransferredTo : String
  Amount : Num
  deriving DecidableEq

/-! ## database/sql helpers -/

/-- The call `QueryRow(...).Scan(...)`: the first row of the result, `sql.ErrNoRows` when the
result is empty. -/
def QueryRow {α : Type} (rows : List α) : Except Error α :=
  match rows with
  | [] => .error Error.ErrNoRows
  | r :: _ => .ok r

/-- The rowid an `INTEGER PRIMARY KEY AUTOINCREMENT` table gives a row inserted without an
id: one more than the largest rowid used so far (1 in an empty table), `SQLITE_FULL` once
the largest `int64` has been used.  `ids` are the rowids present and, for a table with
explicit ids, its `sqlite_sequence` entry. -/
def nextRowid (ids : List Int) : Except Error Int :=
  let m := ids.foldl max 0
  if maxInt64 ≤ m then .error Error.ErrFull else .ok (m + 1)

/-- Insertion of a row with an explicit rowid at its place in rowid order. -/
def insertRow {α : Type} (key : α → Int) (r : α) : List α → List α
  | [] => [r]
  | x :: xs => if key r < key x then r :: x :: xs else x :: insertRow key r xs

/-! ## The statements of `sql.go` -/

/-- The statement `SELECT login, password, phone_number, status FROM clients WHERE login = ?`. -/
def LoginSQL (db : Store) (login : String) : List (String × String × Int × String) :=
  (db.clients.filter (fun r => r.login = login)).map
    (fun r => (r.login, r.password, r.phone_number, r.status))

/-- The statement `SELECT login FROM clients WHERE login = ?`. -/
def LoginExistSQL (db : Store) (login : String) : List String :=
  (db.clients.filter (fun r => r.login = login)).map (fun r => r.login)

/-- The statement `SELECT phone_number FROM clients WHERE phone_number = ?`. -/
def PhoneNumberExistSQL (db : Store) (phoneNumber : Int) : List Int :=
  (db.clients.filter (fun r => r.phone_number = phoneNumber)).map (fun r => r.phone_number)

/-- The statement `SELECT name FROM services WHERE name = ?`. -/
def ServiceExistSQL (db : Store) (name : String) : List String :=
  (db.services.filter (fun r => r.name = name)).map (fun r => r.name)

/-- The statement `SELECT location FROM atms WHERE location = ?`. -/
def AtmExistSQL (db : Store) (location : String) : List String :=
  (db.atms.filter (fun r => r.location = location)).map (fun r => r.location)

/-- The statement `SELECT id FROM clients WHERE phone_number = ?`. -/
def GetClientIdByPhoneNumberSQL (db : Store) (phoneNumber : Int) : List Int :=
  (db.clients.filter (fun r => r.phone_number = phoneNumber)).map (fun r => r.id)

/-- The statement `SELECT id FROM clients WHERE login = ?`. -/
def GetClientIdByLoginSQL (db : Store) (login : String) : List Int :=
  (db.clients.filter (fun r => r.login = login)).map (fun r => r.id)

/-- The statement `SELECT client_id FROM accounts WHERE id = ?`. -/
def GetClientIdByAccountSQL (db : Store) (id : Int) : List Int :=
  (db.accounts.filter (fun r => r.id = id)).map (fun r => r.client_id)

/-- The statement `SELECT status FROM clients WHERE id = ?`. -/
def GetClientStatusSQL (db : Store) (id : Int) : List String :=
  (db.clients.filter (fun r => r.id = id)).map (fun r => r.status)

/-- The statement `SELECT status FROM clients WHERE phone_number = ?`. -/
def GetClientStatusByPhoneNumberSQL (db : Store) (phoneNumber : Int) : List String :=
  (db.clients.filter (fun r => r.phone_number = phoneNumber)).map (fun r => r.status)

/-- The statement `SELECT id, balance FROM accounts WHERE client_id = ?`. -/
def GetClientAccountsSQL (db : Store) (clientId : Int) : List (Int × Num) :=
  (db.accounts.filter (fun r => r.client_id = clientId)).map (fun r => (r.id, r.balance))

/-- The statement `SELECT id FROM accounts WHERE client_id = ? LIMIT 1`. -/
def GetClientAccountIdSQL (db : Store) (clientId : Int) : List Int :=
  ((db.accounts.filter (fun r => r.client_id = clientId)).map (fun r => r.id)).take 1

/-- The statement `INSERT INTO clients(name, login, password, phone_number, status)
VALUES (:name, :login, :password, :phone_number, 'active')`, under `login UNIQUE` and
`phone_number UNIQUE`.  The new rowid is one more than the largest rowid the table has
ever held (`seq`, the `sqlite_sequence` entry, and the rows present); the result is the
table and the new `sqlite_sequence` entry. -/
def AddClientSQL (clients : List ClientRow) (seq : Int) (name login password : String)
    (phone_number : Int) : Except Error (List ClientRow × Int) :=
  match nextRowid (seq :: clients.map (fun r => r.id)) with
  | .error err => .error err
  | .ok id =>
    if clients.any (fun r => r.login = login) then .error Error.ErrConstraintUnique
    else if clients.any (fun r => r.phone_number = phone_number) then
      .error Error.ErrConstraintUnique
    else
      .ok (clients ++ [{ id := id, name := name, login := login, password := password,
                         phone_number := phone_number, status := "active" }], id)

/-- The statement `INSERT INTO accounts(client_id, balance) VALUES (:client_id, :balance)`,
under `balance NOT NULL` and `check ( balance >= 0 )`; the result is the table and the new
`sqlite_sequence` entry. -/
def AddAccountSQL (accounts : List AccountRow) (seq : Int) (client_id : Int)
    (balance : Num) : Except Error (List AccountRow × Int) :=
  match nextRowid (seq :: accounts.map (fun r => r.id)) with
  | .error err => .error err
  | .ok id =>
    if balance = Num.nan then .error Error.ErrConstraintNotNull
    else if 0 ≤ balance then
      .ok (accounts ++ [{ id := id, client_id := client_id, balance := balance }], id)
    else .error Error.ErrConstraintCheck

/-- The statement `INSERT INTO journal(date, client_id, type, transferred_to, amount)
VALUES (...)`, under `amount NOT NULL` and `check ( amount > 0 )`. -/
def AddToJournalSQL (journal : List JournalRow) (date : String) (client_id : Int)
    (type transferred_to : String) (amount : Num) : Except Error (List JournalRow) :=
  match nextRowid (journal.map (fun r => r.id)) with
  | .error err => .error err
  | .ok id =>
    if amount = Num.nan then .error Error.ErrConstraintNotNull
    else if 0 < amount then
      .ok (journal ++ [{ id := id, date := date, client_id := client_id, kind := type,
                         transferred_to := transferred_to, amount := amount }])
    else .error Error.ErrConstraintCheck

/-- What `SET balance = balance + :amount WHERE id = :id` does to one row: `:amount` is
bound as a REAL, so SQLite converts the balance to `float64` and adds in `float64`. -/
def addToBalance (id : Int) (amount : Num) (r : AccountRow) : AccountRow :=
  if r.id = id then { r with balance := Num.add r.balance.toFloat64 amount } else r

/-- The statement `UPDATE accounts SET balance = balance + :amount WHERE id = :id`, under
`balance NOT NULL` and `check ( balance >= 0 )`.  No row with that id is not an error: the
statement then updates nothing. -/
def UpdateClientBalanceSQL (accounts : List AccountRow) (id : Int) (amount : Num) :
    Except Error (List AccountRow) :=
  if accounts.any (fun r => r.id = id ∧ Num.add r.balance.toFloat64 amount = Num.nan) then
    .error Error.ErrConstraintNotNull
  else if accounts.any (fun r => r.id = id ∧ ¬ (0 ≤ Num.add r.balance.toFloat64 amount)) then
    .error Error.ErrConstraintCheck
  else .ok (accounts.map (addToBalance id amount))

/-- What `ON CONFLICT (login) DO UPDATE SET name=excluded.name, login=excluded.login,
password=excluded.password, phone_number=excluded.phone_number, status=excluded.status` does
to one row: the row that has the login of the entry takes the entry's columns and keeps its
id. -/
def overwriteClient (c : Client) (r : ClientRow) : ClientRow :=
  if r.login = c.Login then
    { r with name := c.Name, login := c.Login, password := c.Password,
             phone_number := c.PhoneNumber, status := c.Status }
  else r

/-- The statement `INSERT INTO clients (id, name, login, password, phone_number, status)
VALUES (...) ON CONFLICT (login) DO UPDATE SET name=excluded.name, login=excluded.login,
password=excluded.password, phone_number=excluded.phone_number, status=excluded.status`.
SQLite tests the conflict target first: when a row has the login, that row is updated (its
id stays) and nothing is inserted, and the update fails when another row has the new phone
number.  Without a login conflict the row is inserted, and a used id or phone number
fails. -/
def UpdateListOfClientsSQL (clients : List ClientRow) (c : Client) :
    Except Error (List ClientRow) :=
  if clients.any (fun r => r.login = c.Login) then
    if clients.any (fun r => r.login ≠ c.Login ∧ r.phone_number = c.PhoneNumber) then
      .error Error.ErrConstraintUnique
    else .ok (clients.map (overwriteClient c))
  else if clients.any (fun r => r.id = c.Id) then .error Error.ErrConstraintUnique
  else if clients.any (fun r => r.phone_number = c.PhoneNumber) then
    .error Error.ErrConstraintUnique
  else
    .ok (insertRow (fun r => r.id)
      { id := c.Id, name := c.Name, login := c.Login, password := c.Password,
        phone_number := c.PhoneNumber, status := c.Status } clients)

/-! ## `errors.Is` -/

/-- The unwrap chain of `errors.Is`: `QueryError` and `DbError` unwrap to the error they
hold, the other errors unwrap to nothing.  The targets `api.go` asks for are the sentinel
errors, for which Go's `==` is equality of the constructors here. -/
def Error.is : Error → Error → Bool
  | Error.QueryError q inner, target =>
    decide (Error.QueryError q inner = target) || Error.is inner target
  | Error.DbError inner, target =>
    decide (Error.DbError inner = target) || Error.is inner target
  | err, target => decide (err = target)

/-- The Go function `errors.Is(err, target)`; a nil `err` is no target. -/
def errorsIs (err : Option Error) (target : Error) : Bool :=
  match err with
  | none => false
  | some e => e.is target

/-- The `err` a `QueryRow(...).Scan(...)` call returns. -/
def scanErr {α : Type} (r : Except Error α) : Option Error :=
  match r with
  | .ok _ => none
  | .error err => some err

/-! ## `api.go` -/

def checkClientExist (login : String) (phoneNumber : Int) (db : Store) : Option Error :=
  if login ≠ "" ∧ errorsIs (scanErr (QueryRow (LoginExistSQL db login))) Error.ErrNoRows = false
  then some Error.ErrLoginExist
  else if errorsIs (scanErr (QueryRow (PhoneNumberExistSQL db phoneNumber))) Error.ErrNoRows
      = false
  then some Error.ErrPhoneNumberExist
  else none

def checkServiceExist (name : String) (db : Store) : Option Error :=
  if errorsIs (scanErr (QueryRow (ServiceExistSQL db name))) Error.ErrNoRows = false
  then some Error.ErrServiceExist
  else none

def checkATMExist (location : String) (db : Store) : Option Error :=
  if errorsIs (scanErr (QueryRow (AtmExistSQL db location))) Error.ErrNoRows = false
  then some Error.ErrATMExist
  else none

/-- The Go function `AddClient`: the store after the call and the returned error. -/
def AddClient (name login password : String) (phoneNumber : Int) (db : Store) :
    Store × Option Error :=
  match checkClientExist login phoneNumber db with
  | some err => (db, some err)
  | none =>
    match AddClientSQL db.clients db.clientsSeq name login password phoneNumber with
    | .error err => (db, some err)
    | .ok (clients, seq) => ({ db with clients := clients, clientsSeq := seq }, none)

/-- The Go function `AddAccount`; `balance = balance * 100` is `int64` arithmetic, and the
product is bound as an integer. -/
def AddAccount (phoneNumber balance : Int) (db : Store) : Store × Option Error :=
  match QueryRow (GetClientIdByPhoneNumberSQL db phoneNumber) with
  | .error err => (db, some err)
  | .ok clientId =>
    let balance := wrapInt64 (balance * 100)
    match AddAccountSQL db.accounts db.accountsSeq clientId (Num.fin (balance : ℚ)) with
    | .error err => (db, some err)
    | .ok (accounts, seq) => ({ db with accounts := accounts, accountsSeq := seq }, none)

/-- The Go function `Login`: the returned phone number and error. -/
def Login (login password : String) (db : Store) : Int × Option Error :=
  match QueryRow (LoginSQL db login) with
  | .error err =>
    if errorsIs (some err) Error.ErrNoRows then (-1, none)
    else (-1, some (queryError "LoginSQL" err))
  | .ok (_dbLogin, dbPassword, phoneNumber, dbStatus) =>
    if dbPassword ≠ password then (-1, some Error.ErrInvalidPass)
    else if dbStatus = Locked then (-1, some Error.ErrClientIsLocked)
    else (phoneNumber, none)

/-- The Go function `GetListOfClientAccounts`: the returned slice (nil is the empty list)
and error.  `Scan` converts the stored balance to `float64`, and `/= 100.0` divides in
`float64`. -/
def GetListOfClientAccounts (login : String) (db : Store) : List Account × Option Error :=
  match QueryRow (GetClientIdByLoginSQL db login) with
  | .error err => ([], some (queryError "GetClientIdByLoginSQL" err))
  | .ok clientId =>
    ((GetClientAccountsSQL db clientId).map
      (fun row => { Id := row.1, Balance := Num.div row.2.toFloat64 100 }), none)

/-- The Go function `PayForService`; `dateAndTime` is the formatted `time.Now()`.  The
payer lookup runs after `db.Begin()` and before the deferred rollback/commit is installed:
when it fails the function returns with the transaction still open.  `amount *= 100.0` and
`-1*amount` are `float64` products. -/
def PayForService (nameOfService : String) (accountId : Int) (login : String) (amount : Num)
    (dateAndTime : String) (db : Store) : Store × Option Error :=
  if errorsIs (checkServiceExist nameOfService db) Error.ErrServiceExist = false then
    (db, some Error.ErrServiceNotExist)
  else
    match QueryRow (GetClientIdByLoginSQL db login) with
    | .error err =>
      ({ db with openTx := db.openTx + 1 }, some (queryError "GetClientIdByLoginSQL" err))
    | .ok clientId =>
      let amount := Num.mul amount 100
      match UpdateClientBalanceSQL db.accounts accountId (Num.mul (Num.fin (-1)) amount) with
      | .error err => (db, some err)
      | .ok accounts =>
        match AddToJournalSQL db.journal dateAndTime clientId Service nameOfService amount with
        | .error err => (db, some err)
        | .ok journal => ({ db with accounts := accounts, journal := journal }, none)

/-- The statements both transfers run inside their transaction: payer lookup, debit,
credit, journal row.  `.error` is a rollback.  `amount *= 100.0` and `-1*amount` are
`float64` products. -/
def transferTx (targetAccountId : Int) (login : String) (accountId : Int) (amount : Num)
    (transferredTo dateAndTime : String) (db : Store) : Store × Option Error :=
  match QueryRow (GetClientIdByLoginSQL db login) with
  | .error err => (db, some (queryError "GetClientIdByLoginSQL" err))
  | .ok clientId =>
    let amount := Num.mul amount 100
    match UpdateClientBalanceSQL db.accounts accountId (Num.mul (Num.fin (-1)) amount) with
    | .error err => (db, some err)
    | .ok accounts1 =>
      match UpdateClientBalanceSQL accounts1 targetAccountId amount with
      | .error err => (db, some err)
      | .ok accounts2 =>
        match AddToJournalSQL db.journal dateAndTime clientId Transfer transferredTo amount with
        | .error err => (db, some err)
        | .ok journal => ({ db with accounts := accounts2, journal := journal }, none)

/-- The Go function `TransferToByAccountId`; the bound `int64` target id is stored in the
TEXT column `transferred_to` as its decimal text. -/
def TransferToByAccountId (targetAccountId : Int) (login : String) (accountId : Int)
    (amount : Num) (dateAndTime : String) (db : Store) : Store × Option Error :=
  match QueryRow (GetClientIdByAccountSQL db targetAccountId) with
  | .error err => (db, some (queryError "GetClientIdByAccountSQL" err))
  | .ok targetClientId =>
    match QueryRow (GetClientStatusSQL db targetClientId) with
    | .error err => (db, some (queryError "GetClientStatusSQL" err))
    | .ok targetClientStatus =>
      if targetClientStatus = Locked then (db, some Error.ErrClientIsLocked)
      else
        transferTx targetAccountId login accountId amount (toString targetAccountId)
          dateAndTime db

/-- The Go function `TransferToByPhoneNumber`. -/
def TransferToByPhoneNumber (phoneNumber : Int) (login : String) (accountId : Int)
    (amount : Num) (dateAndTime : String) (db : Store) : Store × Option Error :=
  match QueryRow (GetClientStatusByPhoneNumberSQL db phoneNumber) with
  | .error err => (db, some (queryError "GetClientStatusByPhoneNumberSQL" err))
  | .ok targetClientStatus =>
    if targetClientStatus = Locked then (db, some Error.ErrClientIsLocked)
    else
      match QueryRow (GetClientIdByPhoneNumberSQL db phoneNumber) with
      | .error err => (db, some (queryError "GetClientIdByPhoneNumberSQL" err))
      | .ok targetClientId =>
        match QueryRow (GetClientAccountIdSQL db targetClientId) with
        | .error err => (db, some (queryError "GetClientAccountIdSQL" err))
        | .ok targetAccountId =>
          transferTx targetAccountId login accountId amount (toString phoneNumber)
            dateAndTime db

/-- The loop of `ImportListOfClients`: one upsert per entry, stopping at the first error. -/
def importClientsLoop : List Client → List ClientRow → Except Error (List ClientRow)
  | [], rows => .ok rows
  | client :: rest, rows =>
    match UpdateListOfClientsSQL rows client with
    | .error err => .error err
    | .ok rows1 => importClientsLoop rest rows1

/-- The Go function `ImportListOfClients`.  Every statement of the loop names an id, and
SQLite raises the `sqlite_sequence` entry of the table to it, also when the statement ends
in the `DO UPDATE`; a rollback restores the entry. -/
def ImportListOfClients (clients : List Client) (db : Store) : Store × Option Error :=
  match importClientsLoop clients db.clients with
  | .error err => (db, some err)
  | .ok rows =>
    ({ db with clients := rows,
               clientsSeq := (clients.map (fun c => c.Id)).foldl max db.clientsSeq }, none)

/-- The statement `UPDATE clients SET status = :status WHERE phone_number = :phone_number`. -/
def ChangeClientStatusSQL (clients : List ClientRow) (status : String) (phone_number : Int) :
    List ClientRow :=
  clients.map (fun r => if r.phone_number = phone_number then { r with status := status } else r)

/-- The Go function `ChangeClientStatus`. -/
def ChangeClientStatus (phoneNumber : Int) (status : String) (db : Store) :
    Store × Option Error :=
  if errorsIs (checkClientExist "" phoneNumber db) Error.ErrPhoneNumberExist = false then
    (db, some Error.ErrPhoneNumberNotExist)
  else
    ({ db with clients := ChangeClientStatusSQL db.clients status phoneNumber }, none)

/-! ## More statements of `sql.go` and operations of `api.go` -/

/-- The statement `SELECT id, client_id, balance FROM accounts`. -/
def GetListOfAccountsSQL (db : Store) : List (Int × Int × Num) :=
  db.accounts.map (fun r => (r.id, r.client_id, r.balance))

/-- The statement `SELECT id, name, login, password, phone_number, status FROM clients
ORDER BY name DESC LIMIT ? OFFSET ?`.  Names compare as SQLite compares TEXT (bytewise,
which is the order of `String`); SQLite reads a negative `LIMIT` as no limit and a negative
`OFFSET` as 0. -/
def GetListOfClientsFormattedSQL (db : Store) (limit offset : Int) : List ClientRow :=
  let rows := (db.clients.insertionSort (fun a b => b.name ≤ a.name)).drop offset.toNat
  if limit < 0 then rows else rows.take limit.toNat

/-- The statement `INSERT INTO services(name) VALUES (:name)`, under `name UNIQUE`. -/
def AddServiceSQL (services : List ServiceRow) (name : String) :
    Except Error (List ServiceRow) :=
  match nextRowid (services.map (fun r => r.id)) with
  | .error err => .error err
  | .ok id =>
    if services.any (fun r => r.name = name) then .error Error.ErrConstraintUnique
    else .ok (services ++ [{ id := id, name := name }])

/-- The statement `INSERT INTO atms(name, location) VALUES (:name, :location)`, under
`location UNIQUE`.  The new rowid is one more than the largest rowid the table has ever
held (`seq`, the `sqlite_sequence` entry, and the rows present); the result is the table
and the new `sqlite_sequence` entry. -/
def AddAtmSQL (atms : List AtmRow) (seq : Int) (name location : String) :
    Except Error (List AtmRow × Int) :=
  match nextRowid (seq :: atms.map (fun r => r.id)) with
  | .error err => .error err
  | .ok id =>
    if atms.any (fun r => r.location = location) then .error Error.ErrConstraintUnique
    else .ok (atms ++ [{ id := id, name := name, location := location }], id)

/-- The statement `INSERT INTO accounts (id, client_id, balance) VALUES (...) ON CONFLICT (id)
DO UPDATE SET id=excluded.id, client_id=excluded.client_id, balance=excluded.balance`, under
`balance NOT NULL` and `check ( balance >= 0 )`: the row with the id takes the entry's
columns, or the entry is inserted.  The bound balance is the entry's `Balance` as it is. -/
def UpdateListOfAccountsWithClientIdsSQL (accounts : List AccountRow)
    (a : AccountWithClientId) : Except Error (List AccountRow) :=
  if a.Balance = Num.nan then .error Error.ErrConstraintNotNull
  else if ¬ (0 ≤ a.Balance) then .error Error.ErrConstraintCheck
  else if accounts.any (fun r => r.id = a.Id) then
    .ok (accounts.map (fun r =>
      if r.id = a.Id then { id := a.Id, client_id := a.ClientId, balance := a.Balance }
      else r))
  else
    .ok (insertRow (fun r => r.id)
      { id := a.Id, client_id := a.ClientId, balance := a.Balance } accounts)

/-- The statement `INSERT OR REPLACE INTO atms (id, name, location) VALUES (...)`: the rows
that have the id or the location of the entry are deleted and the entry is inserted; the
`sqlite_sequence` entry follows the largest id.  The statement cannot violate a
constraint. -/
def UpdateListOfATMsSQL (atms : List AtmRow) (seq : Int) (a : ATM) : List AtmRow × Int :=
  (insertRow (fun r => r.id) { id := a.Id, name := a.Name, location := a.Location }
    (atms.filter (fun r => r.id ≠ a.Id ∧ r.location ≠ a.Location)), max seq a.Id)

/-- The Go function `AddService`. -/
def AddService (name : String) (db : Store) : Store × Option Error :=
  match checkServiceExist name db with
  | some err => (db, some err)
  | none =>
    match AddServiceSQL db.services name with
    | .error err => (db, some err)
    | .ok services => ({ db with services := services }, none)

/-- The Go function `AddAtm`. -/
def AddAtm (name location : String) (db : Store) : Store × Option Error :=
  match checkATMExist location db with
  | some err => (db, some err)
  | none =>
    match AddAtmSQL db.atms db.atmsSeq name location with
    | .error err => (db, some err)
    | .ok (atms, seq) => ({ db with atms := atms, atmsSeq := seq }, none)

/-- The columns of a `clients` row scanned into the Go struct `Client`. -/
def ClientRow.toClient (r : ClientRow) : Client :=
  { Id := r.id, Name := r.name, Login := r.login, Password := r.password,
    PhoneNumber := r.phone_number, Status := r.status }

/-- The Go function `GetListOfClientsFormatted`: the returned slice and error. -/
def GetListOfClientsFormatted (limit offset : Int) (db : Store) : List Client × Option Error :=
  ((GetListOfClientsFormattedSQL db limit offset).map ClientRow.toClient, none)

/-- The Go function `GetListOfAccountsWithClients`: the returned slice and error; every
`Balance` is the stored balance, converted to `float64` by `Scan` and divided by 100 in
`float64`. -/
def GetListOfAccountsWithClients (db : Store) : List AccountWithClientId × Option Error :=
  ((GetListOfAccountsSQL db).map
    (fun row => { Id := row.1, ClientId := row.2.1, Balance := Num.div row.2.2.toFloat64 100 }), none)

/-- The loop of `ImportListOfAccounts`: one upsert per entry, stopping at the first
error. -/
def importAccountsLoop :
    List AccountWithClientId → List AccountRow → Except Error (List AccountRow)
  | [], rows => .ok rows
  | account :: rest, rows =>
    match UpdateListOfAccountsWithClientIdsSQL rows account with
    | .error err => .error err
    | .ok rows1 => importAccountsLoop rest rows1

/-- The Go function `ImportListOfAccounts`.  Every statement of the loop names an id, and
SQLite raises the `sqlite_sequence` entry of the table to it; a rollback restores the
entry. -/
def ImportListOfAccounts (accountWithClientIds : List AccountWithClientId) (db : Store) :
    Store × Option Error :=
  match importAccountsLoop accountWithClientIds db.accounts with
  | .error err => (db, some err)
  | .ok rows =>
    ({ db with accounts := rows,
               accountsSeq :=
                 (accountWithClientIds.map (fun a => a.Id)).foldl max db.accountsSeq }, none)

/-- The loop of `ImportListOfATMs`: one `INSERT OR REPLACE` per entry. -/
def importATMsLoop : List ATM → List AtmRow × Int → List AtmRow × Int
  | [], st => st
  | atm :: rest, st => importATMsLoop rest (UpdateListOfATMsSQL st.1 st.2 atm)

/-- The Go function `ImportListOfATMs`. -/
def ImportListOfATMs (atms : List ATM) (db : Store) : Store × Option Error :=
  ({ db with atms := (importATMsLoop atms (db.atms, db.atmsSeq)).1,
             atmsSeq := (importATMsLoop atms (db.atms, db.atmsSeq)).2 }, none)

/-- The stores a new database can be in: the one `Init` leaves, and the store after any
call of a public operation that changes the database, whatever the call returns. -/
inductive Reachable : Store → Prop where
  | init : Reachable emptyStore
  | addClient (name login password : String) (phoneNumber : Int) {db : Store} :
      Reachable db → Reachable (AddClient name login password phoneNumber db).1
  | addAccount (phoneNumber balance : Int) {db : Store} :
      Reachable db → Reachable (AddAccount phoneNumber balance db).1
  | addService (name : String) {db : Store} :
      Reachable db → Reachable (AddService name db).1
  | addAtm (name location : String) {db : Store} :
      Reachable db → Reachable (AddAtm name location db).1
  | payForService (nameOfService : String) (accountId : Int) (login : String) (amount : Num)
      (dateAndTime : String) {db : Store} :
      Reachable db →
      Reachable (PayForService nameOfService accountId login amount dateAndTime db).1
  | transferToByAccountId (targetAccountId : Int) (login : String) (accountId : Int)
      (amount : Num) (dateAndTime : String) {db : Store} :
      Reachable db →
      Reachable (TransferToByAccountId targetAccountId login accountId amount dateAndTime db).1
  | transferToByPhoneNumber (phoneNumber : Int) (login : String) (accountId : Int)
      (amount : Num) (dateAndTime : String) {db : Store} :
      Reachable db →
      Reachable (TransferToByPhoneNumber phoneNumber login accountId amount dateAndTime db).1
  | importListOfClients (clients : List Client) {db : Store} :
      Reachable db → Reachable (ImportListOfClients clients db).1
  | importListOfAccounts (accounts : List AccountWithClientId) {db : Store} :
      Reachable db → Reachable (ImportListOfAccounts accounts db).1
  | importListOfATMs (atms : List ATM) {db : Store} :
      Reachable db → Reachable (ImportListOfATMs atms db).1
  | changeClientStatus (phoneNumber : Int) (status : String) {db : Store} :
      Reachable db → Reachable (ChangeClientStatus phoneNumber status db).1

/-! ## The constraints of the schema -/

/-- The constraints the DDL of `sql.go` keeps on every database: primary keys (rows in
rowid order, so ids are distinct), `UNIQUE` columns and `CHECK`s. -/
def WF (db : Store) : Prop :=
  db.clients.Pairwise (fun a b => a.id < b.id) ∧
  db.clients.Pairwise (fun a b => a.login ≠ b.login) ∧
  db.clients.Pairwise (fun a b => a.phone_number ≠ b.phone_number) ∧
  db.accounts.Pairwise (fun a b => a.id < b.id) ∧
  (∀ a ∈ db.accounts, 0 ≤ a.balance) ∧
  db.journal.Pairwise (fun a b => a.id < b.id) ∧
  (∀ j ∈ db.journal, 0 < j.amount) ∧
  db.services.Pairwise (fun a b => a.id < b.id) ∧
  db.services.Pairwise (fun a b => a.name ≠ b.name) ∧
  db.atms.Pairwise (fun a b => a.id < b.id) ∧
  db.atms.Pairwise (fun a b => a.location ≠ b.location)

instance (db : Store) : Decidable (WF db) := by
  unfold WF; infer_instance

/-- The stored balance of the account with the given id, if there is one. -/
def balanceOf (db : Store) (id : Int) : Option Num :=
  (db.accounts.find? (fun r => r.id = id)).map (fun r => r.balance)

/-- The database of `TestTransferToByAccountId` before the transfer. -/
def transferTestStore : Store :=
  (AddAccount 5678 0
    (AddAccount 1234 50000
      (AddClient "Vasya" "vasya2" "1234" 5678
        (AddClient "Vasya" "vasya1" "1234" 1234 emptyStore).1).1).1).1

/-- The database of `TestTransferToByAccountId` after the owner of account 2 was locked. -/
def lockedTargetStore : Store := (ChangeClientStatus 5678 Locked transferTestStore).1

/-- The database of `TestAddClient` after its first `AddClient`. -/
def oneClientStore : Store := (AddClient "Vasya" "vasya" "1234" 999999999 emptyStore).1

/-- A database whose only client was added with the empty login. -/
def emptyLoginStore : Store := (AddClient "Vasya" "" "1234" 999999999 emptyStore).1

/-- The database with the one client "vasya" after `AddAccount(999999999, 2^62)`. -/
def overflowStore : Store := (AddAccount 999999999 (2 ^ 62) oneClientStore).1

/-- The database of `TestAddAccount` after its successful `AddAccount(999999999, 200000)`. -/
def fundedStore : Store := (AddAccount 999999999 200000 oneClientStore).1

/-- The database of `TestGetListOfClientAccounts` after `AddAccount(999999999, 20000)`. -/
def listedStore : Store := (AddAccount 999999999 20000 oneClientStore).1

/-- The `UNIQUE` constraints of `clients`. -/
def UniqueClients (rows : List ClientRow) : Prop :=
  rows.Pairwise (fun a b => a.login ≠ b.login) ∧
  rows.Pairwise (fun a b => a.phone_number ≠ b.phone_number)

/-- Some row of the table has the login of the entry and the entry's name, password, phone
number and status. -/
def holdsClient (rows : List ClientRow) (c : Client) : Prop :=
  ∃ r ∈ rows, r.login = c.Login ∧ r.name = c.Name ∧ r.password = c.Password ∧
    r.phone_number = c.PhoneNumber ∧ r.status = c.Status

/-- A list to import in which two entries have the login "a" and the first of them has
the phone number of a third entry. -/
def duplicateLoginImport : List Client :=
  [{ Id := 1, Name := "A", Login := "a", Password := "p", PhoneNumber := 5, Status := "active" },
   { Id := 2, Name := "A", Login := "a", Password := "p", PhoneNumber := 6, Status := "active" },
   { Id := 3, Name := "B", Login := "b", Password := "p", PhoneNumber := 5, Status := "active" }]

/-- A new database after the import of `duplicateLoginImport`. -/
def duplicateLoginStore : Store := (ImportListOfClients duplicateLoginImport emptyStore).1

/-- A list to import whose entries have two logins. -/
def distinctLoginImport : List Client :=
  [{ Id := 1, Name := "A", Login := "a", Password := "p", PhoneNumber := 5, Status := "active" },
   { Id := 3, Name := "B", Login := "b", Password := "p", PhoneNumber := 6, Status := "locked" }]

/-- A new database after the import of `distinctLoginImport`. -/
def distinctLoginStore : Store := (ImportListOfClients distinctLoginImport emptyStore).1

/-- A database with twelve clients, added one after the other. -/
def twelveClientsStore : Store :=
  (List.range 12).foldl
    (fun db i => (AddClient ("Client" ++ toString i) ("login" ++ toString i) "1234"
      (999999900 + (i : Int)) db).1) emptyStore

/-- A new database after `ImportListOfATMs` of one ATM whose id is the largest `int64`. -/
def lastRowidAtmStore : Store :=
  (ImportListOfATMs [{ Id := 9223372036854775807, Name := "Oson", Location := "location1" }]
    emptyStore).1

/-- The database of `TestAddService` and `TestAddATM` after their first calls. -/
def serviceAtmStore : Store := (AddAtm "Oson" "location1" (AddService "svet" emptyStore).1).1

/-- The database of `TestPayForService` before the payment: the service "Water", the
client "vasya" and account 1 with 20000 major units. -/
def payTestStore : Store :=
  (AddAccount 999999999 20000
    (AddClient "Vasya" "vasya" "1234" 999999999 (AddService "Water" emptyStore).1).1).1

/-- The sum of the stored balances of all accounts, as a number and not rounded. -/
def totalBalance (db : Store) : Num := (db.accounts.map (fun r => r.balance)).foldr Num.plus 0

/-! ## Lemmas on numbers -/

@[simp] theorem Num.ofNat_eq (n : Nat) : (OfNat.ofNat n : Num) = Num.fin (n : ℚ) := rfl

@[simp] theorem Num.fin_lt_fin (a b : ℚ) : (Num.fin a < Num.fin b) ↔ a < b := Iff.rfl

theorem log2Aux_le (fuel : Nat) : ∀ n k : Nat, n < 2 ^ (k + 1) → log2Aux fuel n ≤ k := by
  induction fuel with
  | zero => intro n k _; simp [log2Aux]
  | succ fuel ih =>
    intro n k h
    unfold log2Aux
    split
    · exact Nat.zero_le k
    · rename_i h2
      cases k with
      | zero => simp at h; omega
      | succ k =>
        have : n / 2 < 2 ^ (k + 1) := by
          rw [Nat.div_lt_iff_lt_mul (by decide)]
          rw [pow_succ] at h
          exact h
        have := ih (n / 2) k this
        omega

theorem log2_le {n k : Nat} (h : n < 2 ^ (k + 1)) : log2 n ≤ k := log2Aux_le n n k h

theorem log2_one : log2 1 = 0 := by decide

/-- An integer of magnitude at most `2 ^ 53` is a binary64 value. -/
theorem isFloat64_intCast (n : Int) (h : n.natAbs ≤ 2 ^ 53) : isFloat64 (n : ℚ) := by
  unfold isFloat64
  simp only [Rat.intCast_den, Rat.intCast_num, log2_one]
  refine ⟨by norm_num, by norm_num, ?_, ?_⟩
  · rcases Nat.lt_or_ge n.natAbs (2 ^ 53) with hlt | hge
    · have : log2 n.natAbs ≤ 52 := log2_le hlt
      have h0 : log2 n.natAbs - 52 = 0 := by omega
      rw [h0]; simp
    · have heq : n.natAbs = 2 ^ 53 := le_antisymm h hge
      rw [heq]
      decide!
  · have : log2 n.natAbs ≤ 53 := log2_le (lt_of_le_of_lt h (by norm_num))
    omega

theorem Num.round_intCast (n : Int) (h : n.natAbs ≤ 2 ^ 53) :
    Num.round (n : ℚ) = Num.fin (n : ℚ) := by
  unfold Num.round
  rw [if_pos (isFloat64_intCast n h)]

theorem Num.toFloat64_intCast (n : Int) (h : n.natAbs ≤ 2 ^ 53) :
    (Num.fin (n : ℚ)).toFloat64 = Num.fin (n : ℚ) := Num.round_intCast n h

theorem pow2_pos (k : Int) : 0 < pow2 k := by
  unfold pow2
  split
  · positivity
  · positivity

/-- The rounding of a positive rational is an infinity or a rational that is not
negative. -/
theorem nearestFloat64_nonneg (q : ℚ) :
    nearestFloat64 q = Num.posInf ∨ ∃ r : ℚ, 0 ≤ r ∧ nearestFloat64 q = Num.fin r := by
  unfold nearestFloat64
  simp only
  split_ifs
  all_goals first
    | exact Or.inl rfl
    | exact Or.inr ⟨_, mul_nonneg (Nat.cast_nonneg _) (le_of_lt (pow2_pos _)), rfl⟩

/-- Rounding keeps the sign: a rational that is not positive does not round to a positive
number. -/
theorem Num.round_nonpos {q : ℚ} (h : q ≤ 0) : ¬ (0 < Num.round q) := by
  unfold Num.round
  split
  · simpa using h
  · rw [if_neg (not_lt.mpr h)]
    rcases nearestFloat64_nonneg (-q) with hinf | ⟨r, hr, hfin⟩
    · rw [hinf]; intro hc; exact hc
    · rw [hfin]; simpa [Num.neg] using hr

theorem Num.round_ne_nan (q : ℚ) : Num.round q ≠ Num.nan := by
  unfold Num.round
  split
  · simp
  · split
    · rcases nearestFloat64_nonneg q with hinf | ⟨r, _, hfin⟩
      · rw [hinf]; simp
      · rw [hfin]; simp
    · rcases nearestFloat64_nonneg (-q) with hinf | ⟨r, _, hfin⟩
      · rw [hinf]; simp [Num.neg]
      · rw [hfin]; simp [Num.neg]

/-- A product with 100 of a number that is not positive is not positive. -/
theorem Num.mul_hundred_nonpos {amount : Num} (h : amount ≤ 0) :
    ¬ (0 < Num.mul amount 100) := by
  cases amount with
  | fin q =>
    have hq : q ≤ 0 := by simpa using h
    have : q * 100 ≤ 0 := by linarith
    simpa [Num.mul] using Num.round_nonpos this
  | posInf => exact absurd h (fun hc => hc)
  | negInf => simp only [Num.ofNat_eq, Num.mul]; norm_num; intro hc; exact hc
  | nan => exact absurd h (fun hc => hc)

theorem Num.round_int (n : Int) (h1 : -(2 ^ 53) ≤ n) (h2 : n ≤ 2 ^ 53) :
    Num.round (n : ℚ) = Num.fin (n : ℚ) :=
  Num.round_intCast n (by omega)

/-- The `float64` sum of a stored integer and an integer is their sum when the integer and
the sum have magnitude at most `2 ^ 53`. -/
theorem Num.add_int (a b : Int) (h1 : -(2 ^ 53) ≤ a) (h2 : a ≤ 2 ^ 53)
    (h3 : -(2 ^ 53) ≤ a + b) (h4 : a + b ≤ 2 ^ 53) :
    Num.add (Num.fin (a : ℚ)).toFloat64 (Num.fin (b : ℚ)) = Num.fin ((a + b : Int) : ℚ) := by
  rw [Num.toFloat64_intCast a (by omega)]
  simp only [Num.add]
  rw [← Int.cast_add]
  exact Num.round_int _ h3 h4

/-- The `float64` product with -1 of an integer of magnitude at most `2 ^ 53` is its
negation. -/
theorem Num.neg_one_mul_int (x : Int) (h1 : -(2 ^ 53) ≤ x) (h2 : x ≤ 2 ^ 53) :
    Num.mul (Num.fin (-1)) (Num.fin (x : ℚ)) = Num.fin ((-x : Int) : ℚ) := by
  simp only [Num.mul]
  have h := Num.round_int (-x) (by omega) (by omega)
  rw [Int.cast_neg] at h
  rw [neg_one_mul]
  exact h

/-! ## Lemmas on the statements -/

theorem addToBalance_id (id : Int) (x : Num) (r : AccountRow) : (addToBalance id x r).id = r.id := by
  unfold addToBalance; split <;> rfl

theorem find?_map_addToBalance (id k : Int) (x : Num) (l : List AccountRow) :
    (l.map (addToBalance id x)).find? (fun r => r.id = k)
      = (l.find? (fun r => r.id = k)).map (addToBalance id x) := by
  induction l with
  | nil => rfl
  | cons r l ih =>
    by_cases h : r.id = k
    · simp [List.find?, addToBalance_id, h]
    · simp [List.find?, addToBalance_id, h, ih]

theorem UpdateClientBalanceSQL_ok {accounts accounts1 : List AccountRow} {id : Int} {x : Num}
    (h : UpdateClientBalanceSQL accounts id x = .ok accounts1) :
    accounts1 = accounts.map (addToBalance id x) := by
  unfold UpdateClientBalanceSQL at h
  split at h
  · cases h
  · split at h
    · cases h
    · cases h; rfl

/-- A transfer transaction that fails rolls back: the store is the one it started from. -/
theorem transferTx_error {targetAccountId accountId : Int} {login transferredTo date : String}
    {amount : Num} {db db1 : Store} {err : Error}
    (h : transferTx targetAccountId login accountId amount transferredTo date db
      = (db1, some err)) : db1 = db := by
  unfold transferTx at h
  split at h
  · cases h; rfl
  · simp only at h
    split at h
    · cases h; rfl
    · split at h
      · cases h; rfl
      · split at h
        · cases h; rfl
        · cases h

/-- A transfer transaction that commits has found the payer, debited, credited and added
one journal row. -/
theorem transferTx_ok {targetAccountId accountId : Int} {login transferredTo date : String}
    {amount : Num} {db db1 : Store}
    (h : transferTx targetAccountId login accountId amount transferredTo date db
      = (db1, none)) :
    ∃ clientId accounts1 accounts2 journal,
      QueryRow (GetClientIdByLoginSQL db login) = .ok clientId ∧
      UpdateClientBalanceSQL db.accounts accountId
        (Num.mul (Num.fin (-1)) (Num.mul amount 100)) = .ok accounts1 ∧
      UpdateClientBalanceSQL accounts1 targetAccountId (Num.mul amount 100) = .ok accounts2 ∧
      AddToJournalSQL db.journal date clientId Transfer transferredTo (Num.mul amount 100)
        = .ok journal ∧
      db1 = { db with accounts := accounts2, journal := journal } := by
  unfold transferTx at h
  split at h
  · cases h
  · rename_i clientId hq
    simp only at h
    split at h
    · cases h
    · rename_i accounts1 h1
      split at h
      · cases h
      · rename_i accounts2 h2
        split at h
        · cases h
        · rename_i journal h3
          cases h
          exact ⟨clientId, accounts1, accounts2, journal, hq, h1, h2, h3, rfl⟩

/-- The prelude of `TransferToByAccountId` changes nothing: a call that returns nil is a
committed transfer transaction. -/
theorem TransferToByAccountId_ok {targetAccountId accountId : Int} {login date : String}
    {amount : Num} {db db1 : Store}
    (h : TransferToByAccountId targetAccountId login accountId amount date db = (db1, none)) :
    transferTx targetAccountId login accountId amount (toString targetAccountId) date db
      = (db1, none) := by
  unfold TransferToByAccountId at h
  split at h
  · cases h
  · split at h
    · cases h
    · split at h
      · cases h
      · exact h

/-- The journal takes a row only with an amount above 0. -/
theorem AddToJournalSQL_pos {journal journal1 : List JournalRow} {date type target : String}
    {clientId : Int} {amount : Num}
    (h : AddToJournalSQL journal date clientId type target amount = .ok journal1) :
    0 < amount := by
  unfold AddToJournalSQL at h
  split at h
  · cases h
  · split at h
    · cases h
    · split at h
      · assumption
      · cases h

theorem filter_key_eq_singleton {α β : Type} [DecidableEq β] (key : α → β) (k : β) :
    ∀ {l : List α}, l.Pairwise (fun a b => key a ≠ key b) → ∀ {r : α}, r ∈ l → key r = k →
      l.filter (fun x => key x = k) = [r] := by
  intro l
  induction l with
  | nil => intro _ r hr; cases hr
  | cons x xs ih =>
    intro hp r hr hk
    rw [List.pairwise_cons] at hp
    rcases List.mem_cons.mp hr with rfl | hmem
    · have hnil : xs.filter (fun x => key x = k) = [] := by
        rw [List.filter_eq_nil_iff]
        intro y hy
        have := hp.1 y hy
        simp only [decide_eq_true_eq]
        intro hyk
        exact this (hk.trans hyk.symm)
      simp [List.filter_cons, hk, hnil]
    · have hx : key x ≠ k := fun hxk => hp.1 r hmem (hxk.trans hk.symm)
      simp [List.filter_cons, hx, ih hp.2 hmem hk]

theorem filter_key_eq_nil {α β : Type} [DecidableEq β] (key : α → β) (k : β) {l : List α}
    (h : ∀ r ∈ l, key r ≠ k) : l.filter (fun x => key x = k) = [] := by
  rw [List.filter_eq_nil_iff]
  intro y hy
  simpa using h y hy

theorem pairwise_lt_ne {α : Type} (key : α → Int) {l : List α}
    (h : l.Pairwise (fun a b => key a < key b)) : l.Pairwise (fun a b => key a ≠ key b) :=
  h.imp (fun hab => ne_of_lt hab)

/-- Claim C3: on a database that satisfies the constraints of the schema,
`TransferToByAccountId` to an account whose owner has status "locked", and
`TransferToByPhoneNumber` to the phone number of a client with status "locked", return
`ErrClientIsLocked` and leave the store (accounts and journal included) as it was. -/
theorem transfer_to_locked_client (login : String) (accountId : Int) (amount : Num)
    (date : String) (db : Store) (hwf : WF db) :
    (∀ targetAccountId : Int, ∀ target ∈ db.accounts, ∀ owner ∈ db.clients,
      target.id = targetAccountId → owner.id = target.client_id → owner.status = Locked →
      TransferToByAccountId targetAccountId login accountId amount date db
        = (db, some Error.ErrClientIsLocked)) ∧
    (∀ phoneNumber : Int, ∀ owner ∈ db.clients,
      owner.phone_number = phoneNumber → owner.status = Locked →
      TransferToByPhoneNumber phoneNumber login accountId amount date db
        = (db, some Error.ErrClientIsLocked)) := by
  obtain ⟨hcid, -, hphone, haid, -⟩ := hwf
  constructor
  · intro targetAccountId target ht owner ho hid hown hlocked
    have h1 : GetClientIdByAccountSQL db targetAccountId = [target.client_id] := by
      unfold GetClientIdByAccountSQL
      rw [filter_key_eq_singleton (fun r : AccountRow => r.id) targetAccountId
        (pairwise_lt_ne _ haid) ht hid]
      rfl
    have h2 : GetClientStatusSQL db target.client_id = [owner.status] := by
      unfold GetClientStatusSQL
      rw [filter_key_eq_singleton (fun r : ClientRow => r.id) target.client_id
        (pairwise_lt_ne _ hcid) ho hown]
      rfl
    simp [TransferToByAccountId, h1, h2, QueryRow, hlocked]
  · intro phoneNumber owner ho hph hlocked
    have h1 : GetClientStatusByPhoneNumberSQL db phoneNumber = [owner.status] := by
      unfold GetClientStatusByPhoneNumberSQL
      rw [filter_key_eq_singleton (fun r : ClientRow => r.phone_number) phoneNumber
        hphone ho hph]
      rfl
    simp [TransferToByPhoneNumber, h1, QueryRow, hlocked]

/-- In the test database with the owner of account 2 locked, a transfer to account 2 and a
transfer to that owner's phone number 5678 are both refused. -/
theorem transfer_to_locked_client_witness :
    TransferToByAccountId 2 "vasya1" 1 50000 "11-01-2026 10:00:00" lockedTargetStore
      = (lockedTargetStore, some Error.ErrClientIsLocked) ∧
    TransferToByPhoneNumber 5678 "vasya1" 1 50000 "11-01-2026 10:00:00" lockedTargetStore
      = (lockedTargetStore, some Error.ErrClientIsLocked) :=
  have h := transfer_to_locked_client "vasya1" 1 50000 "11-01-2026 10:00:00" lockedTargetStore
    (by decide!)
  ⟨h.1 2 ⟨2, 2, Num.fin 0⟩ (by decide!) ⟨2, "Vasya", "vasya2", "1234", 5678, "locked"⟩ (by decide!)
      (by decide!) (by decide!) (by decide!),
   h.2 5678 ⟨2, "Vasya", "vasya2", "1234", 5678, "locked"⟩ (by decide!) (by decide!)
      (by decide!)⟩

/-! ## Existence checks -/

theorem errorsIs_scanErr_QueryRow {α : Type} (rows : List α) :
    errorsIs (scanErr (QueryRow rows)) Error.ErrNoRows = rows.isEmpty := by
  cases rows <;> simp [QueryRow, scanErr, errorsIs, Error.is]

theorem checkServiceExist_absent {name : String} {db : Store}
    (h : ∀ r ∈ db.services, r.name ≠ name) : checkServiceExist name db = none := by
  unfold checkServiceExist ServiceExistSQL
  rw [errorsIs_scanErr_QueryRow, filter_key_eq_nil (fun r : ServiceRow => r.name) name h]
  simp

/-- Claim C4: for a service name that no row of `services` has, `PayForService` returns
`ErrServiceNotExist` whatever the account, login and amount are, and the store after the
call is the store before it: no balance changes and no journal row is added. -/
theorem PayForService_unknown_service (nameOfService : String) (accountId : Int)
    (login : String) (amount : Num) (date : String) (db : Store)
    (h : ∀ r ∈ db.services, r.name ≠ nameOfService) :
    PayForService nameOfService accountId login amount date db
      = (db, some Error.ErrServiceNotExist) := by
  unfold PayForService
  rw [checkServiceExist_absent h]
  simp [errorsIs]

/-- The first call of `TestPayForService`: `PayForService("", 0, "", 0)` on a new database. -/
theorem PayForService_unknown_service_witness :
    PayForService "" 0 "" 0 "11-01-2026 10:00:00" emptyStore
      = (emptyStore, some Error.ErrServiceNotExist) :=
  PayForService_unknown_service "" 0 "" 0 "11-01-2026 10:00:00" emptyStore (by decide)

/-! ## Login -/

theorem LoginSQL_of_mem {db : Store} (hwf : WF db) {c : ClientRow} (hc : c ∈ db.clients) :
    LoginSQL db c.login = [(c.login, c.password, c.phone_number, c.status)] := by
  unfold LoginSQL
  rw [filter_key_eq_singleton (fun r : ClientRow => r.login) c.login hwf.2.1 hc rfl]
  rfl

/-- Claim C5: the verdicts of `Login` on a database that satisfies the constraints of the
schema: `(-1, nil)` when no client has the login; `(-1, ErrInvalidPass)` when the client
with the login has another password; `(-1, ErrClientIsLocked)` when the password matches
and the status is "locked"; the client's phone number and nil when the password matches
and the status is not "locked". -/
theorem Login_verdicts (login password : String) (db : Store) (hwf : WF db) :
    ((∀ c ∈ db.clients, c.login ≠ login) → Login login password db = (-1, none)) ∧
    (∀ c ∈ db.clients, c.login = login →
      (c.password ≠ password → Login login password db = (-1, some Error.ErrInvalidPass)) ∧
      (c.password = password → c.status = Locked →
        Login login password db = (-1, some Error.ErrClientIsLocked)) ∧
      (c.password = password → c.status ≠ Locked →
        Login login password db = (c.phone_number, none))) := by
  constructor
  · intro h
    have hnil : LoginSQL db login = [] := by
      unfold LoginSQL
      rw [filter_key_eq_nil (fun r : ClientRow => r.login) login h]
      rfl
    simp [Login, hnil, QueryRow, errorsIs, Error.is]
  · intro c hc hlogin
    have hq := LoginSQL_of_mem hwf hc
    rw [hlogin] at hq
    refine ⟨?_, ?_, ?_⟩
    · intro hpw
      simp [Login, hq, QueryRow, hpw]
    · intro hpw hst
      simp [Login, hq, QueryRow, hpw, hst]
    · intro hpw hst
      simp [Login, hq, QueryRow, hpw, hst]

/-- The calls of `TestLogin` on the database with the one client "vasya": an unknown
login, a wrong password and the right password; and the login of a locked client. -/
theorem Login_verdicts_witness :
    Login "" "" oneClientStore = (-1, none) ∧
    Login "vasya" "" oneClientStore = (-1, some Error.ErrInvalidPass) ∧
    Login "vasya" "1234" oneClientStore = (999999999, none) ∧
    Login "vasya2" "1234" lockedTargetStore = (-1, some Error.ErrClientIsLocked) :=
  ⟨(Login_verdicts "" "" oneClientStore (by decide)).1 (by decide),
   ((Login_verdicts "vasya" "" oneClientStore (by decide)).2
      ⟨1, "Vasya", "vasya", "1234", 999999999, "active"⟩ (by decide) (by decide)).1
      (by decide),
   ((Login_verdicts "vasya" "1234" oneClientStore (by decide)).2
      ⟨1, "Vasya", "vasya", "1234", 999999999, "active"⟩ (by decide) (by decide)).2.2
      (by decide) (by decide),
   ((Login_verdicts "vasya2" "1234" lockedTargetStore (by decide)).2
      ⟨2, "Vasya", "vasya2", "1234", 5678, "locked"⟩ (by decide) (by decide)).2.1
      (by decide) (by decide)⟩

/-! ## AddClient -/

theorem LoginExistSQL_isEmpty_false {db : Store} {login : String}
    (h : ∃ c ∈ db.clients, c.login = login) : (LoginExistSQL db login).isEmpty = false := by
  obtain ⟨c, hc, hl⟩ := h
  have hmem : c.login ∈ LoginExistSQL db login := by
    unfold LoginExistSQL
    exact List.mem_map.mpr ⟨c, List.mem_filter.mpr ⟨hc, by simpa using hl⟩, rfl⟩
  cases hq : LoginExistSQL db login with
  | nil => rw [hq] at hmem; cases hmem
  | cons _ _ => rfl

theorem PhoneNumberExistSQL_isEmpty_false {db : Store} {phoneNumber : Int}
    (h : ∃ c ∈ db.clients, c.phone_number = phoneNumber) :
    (PhoneNumberExistSQL db phoneNumber).isEmpty = false := by
  obtain ⟨c, hc, hl⟩ := h
  have hmem : c.phone_number ∈ PhoneNumberExistSQL db phoneNumber := by
    unfold PhoneNumberExistSQL
    exact List.mem_map.mpr ⟨c, List.mem_filter.mpr ⟨hc, by simpa using hl⟩, rfl⟩
  cases hq : PhoneNumberExistSQL db phoneNumber with
  | nil => rw [hq] at hmem; cases hmem
  | cons _ _ => rfl

theorem LoginExistSQL_isEmpty_true {db : Store} {login : String}
    (h : ∀ c ∈ db.clients, c.login ≠ login) : (LoginExistSQL db login).isEmpty = true := by
  unfold LoginExistSQL
  rw [filter_key_eq_nil (fun r : ClientRow => r.login) login h]
  rfl

theorem PhoneNumberExistSQL_isEmpty_true {db : Store} {phoneNumber : Int}
    (h : ∀ c ∈ db.clients, c.phone_number ≠ phoneNumber) :
    (PhoneNumberExistSQL db phoneNumber).isEmpty = true := by
  unfold PhoneNumberExistSQL
  rw [filter_key_eq_nil (fun r : ClientRow => r.phone_number) phoneNumber h]
  rfl

/-- What `checkClientExist` returns, in terms of the rows of `clients`. -/
theorem checkClientExist_eq (login : String) (phoneNumber : Int) (db : Store) :
    checkClientExist login phoneNumber db =
      if login ≠ "" ∧ ∃ c ∈ db.clients, c.login = login then some Error.ErrLoginExist
      else if ∃ c ∈ db.clients, c.phone_number = phoneNumber then
        some Error.ErrPhoneNumberExist
      else none := by
  unfold checkClientExist
  simp only [errorsIs_scanErr_QueryRow]
  by_cases hl : ∃ c ∈ db.clients, c.login = login
  · rw [LoginExistSQL_isEmpty_false hl]
    by_cases hp : ∃ c ∈ db.clients, c.phone_number = phoneNumber
    · rw [PhoneNumberExistSQL_isEmpty_false hp]; simp [hl, hp]
    · have hp1 : ∀ c ∈ db.clients, c.phone_number ≠ phoneNumber :=
        fun c hc hcp => hp ⟨c, hc, hcp⟩
      rw [PhoneNumberExistSQL_isEmpty_true hp1]; simp [hl, hp]
  · have hl1 : ∀ c ∈ db.clients, c.login ≠ login := fun c hc hcl => hl ⟨c, hc, hcl⟩
    rw [LoginExistSQL_isEmpty_true hl1]
    by_cases hp : ∃ c ∈ db.clients, c.phone_number = phoneNumber
    · rw [PhoneNumberExistSQL_isEmpty_false hp]; simp [hl, hp]
    · have hp1 : ∀ c ∈ db.clients, c.phone_number ≠ phoneNumber :=
        fun c hc hcp => hp ⟨c, hc, hcp⟩
      rw [PhoneNumberExistSQL_isEmpty_true hp1]; simp [hl, hp]

/-- Whatever `AddClient` returns with an error, it returns with the store it was given. -/
theorem AddClient_error {name login password : String} {phoneNumber : Int} {db db1 : Store}
    {err : Error} (h : AddClient name login password phoneNumber db = (db1, some err)) :
    db1 = db := by
  unfold AddClient at h
  split at h
  · cases h; rfl
  · split at h
    · cases h; rfl
    · cases h

theorem AddClientSQL_unique_login (clients : List ClientRow) (seq : Int)
    (name login password : String) (phone : Int) (h : ∃ c ∈ clients, c.login = login) :
    ∃ err, AddClientSQL clients seq name login password phone = .error err := by
  have hany : clients.any (fun r => r.login = login) = true := by
    rw [List.any_eq_true]
    obtain ⟨c, hc, hl⟩ := h
    exact ⟨c, hc, by simpa using hl⟩
  unfold AddClientSQL
  split
  · exact ⟨_, rfl⟩
  · rw [if_pos hany]; exact ⟨_, rfl⟩

/-- Claim C6 as stated fails at the empty login: in a database whose client has the login "",
`AddClient` with the login "" and a new phone number does not return `ErrLoginExist` (the
login check is skipped and the insert hits the `UNIQUE` constraint), and with the login ""
and the phone number of that client it returns `ErrPhoneNumberExist` although a client has
the login. -/
theorem AddClient_empty_login_counterexample :
    (∃ c ∈ emptyLoginStore.clients, c.login = "") ∧
    AddClient "Petya" "" "4321" 888888888 emptyLoginStore
      = (emptyLoginStore, some Error.ErrConstraintUnique) ∧
    AddClient "Petya" "" "4321" 999999999 emptyLoginStore
      = (emptyLoginStore, some Error.ErrPhoneNumberExist) := by
  decide

/-- Claim C6, amended: if some client has the login, `AddClient` fails, with `ErrLoginExist`
when the login is not empty; if the login is empty or no client has it, and some client has
the phone number, `AddClient` fails with `ErrPhoneNumberExist`; every failing call leaves
the store, and so the clients table, as it was. -/
theorem AddClient_rejects_duplicates (name login password : String) (phoneNumber : Int)
    (db : Store) :
    ((∃ c ∈ db.clients, c.login = login) →
      (∃ err, AddClient name login password phoneNumber db = (db, some err)) ∧
      (login ≠ "" →
        AddClient name login password phoneNumber db = (db, some Error.ErrLoginExist))) ∧
    ((login = "" ∨ ∀ c ∈ db.clients, c.login ≠ login) →
      (∃ c ∈ db.clients, c.phone_number = phoneNumber) →
      AddClient name login password phoneNumber db = (db, some Error.ErrPhoneNumberExist)) := by
  refine ⟨fun hl => ⟨?_, ?_⟩, ?_⟩
  · unfold AddClient
    split
    · exact ⟨_, rfl⟩
    · obtain ⟨err, herr⟩ :=
        AddClientSQL_unique_login db.clients db.clientsSeq name login password phoneNumber hl
      rw [herr]; exact ⟨_, rfl⟩
  · intro hne
    unfold AddClient
    rw [checkClientExist_eq, if_pos ⟨hne, hl⟩]
  · intro hl hp
    have hnot : ¬ (login ≠ "" ∧ ∃ c ∈ db.clients, c.login = login) := by
      rintro ⟨hne, c, hc, hcl⟩
      rcases hl with h | h
      · exact hne h
      · exact h c hc hcl
    unfold AddClient
    rw [checkClientExist_eq, if_neg hnot, if_pos hp]

/-- The calls of `TestAddClient` after the first: the same client again, then the login
"vasya1" with the same phone number. -/
theorem AddClient_rejects_duplicates_witness :
    AddClient "Vasya" "vasya" "1234" 999999999 oneClientStore
      = (oneClientStore, some Error.ErrLoginExist) ∧
    AddClient "Vasya" "vasya1" "1234" 999999999 oneClientStore
      = (oneClientStore, some Error.ErrPhoneNumberExist) :=
  ⟨((AddClient_rejects_duplicates "Vasya" "vasya" "1234" 999999999 oneClientStore).1
      ⟨⟨1, "Vasya", "vasya", "1234", 999999999, "active"⟩, by decide, by decide⟩).2
      (by decide),
   (AddClient_rejects_duplicates "Vasya" "vasya1" "1234" 999999999 oneClientStore).2
      (Or.inr (by decide))
      ⟨⟨1, "Vasya", "vasya", "1234", 999999999, "active"⟩, by decide, by decide⟩⟩

theorem foldl_max_bounds (l : List Int) :
    ∀ a : Int, a ≤ l.foldl max a ∧ ∀ x ∈ l, x ≤ l.foldl max a := by
  induction l with
  | nil => intro a; exact ⟨le_refl a, fun x hx => by cases hx⟩
  | cons y ys ih =>
    intro a
    obtain ⟨h1, h2⟩ := ih (max a y)
    refine ⟨le_trans (le_max_left a y) h1, ?_⟩
    intro x hx
    rcases List.mem_cons.mp hx with rfl | hmem
    · exact le_trans (le_max_right a x) h1
    · exact h2 x hmem

theorem foldl_max_of_le (l : List Int) : ∀ a : Int, (∀ x ∈ l, x ≤ a) → l.foldl max a = a := by
  induction l with
  | nil => intro a _; rfl
  | cons y ys ih =>
    intro a h
    have hy : y ≤ a := h y (List.mem_cons_self _ _)
    rw [List.foldl_cons, max_eq_left hy]
    exact ih a (fun x hx => h x (List.mem_cons_of_mem _ hx))

/-- Raising a `sqlite_sequence` entry to the same ids a second time changes nothing. -/
theorem foldl_max_idem (l : List Int) (a : Int) : l.foldl max (l.foldl max a) = l.foldl max a :=
  foldl_max_of_le l _ (foldl_max_bounds l a).2

/-- An id given by `AUTOINCREMENT` is larger than every id in the table. -/
theorem nextRowid_fresh {ids : List Int} {id : Int} (h : nextRowid ids = .ok id) :
    ∀ x ∈ ids, x < id := by
  unfold nextRowid at h
  simp only at h
  split at h
  · cases h
  · cases h
    intro x hx
    have := (foldl_max_bounds ids 0).2 x hx
    omega

theorem AddClientSQL_ok {clients rows : List ClientRow} {seq seq1 : Int}
    {name login password : String} {phone : Int}
    (h : AddClientSQL clients seq name login password phone = .ok (rows, seq1)) :
    ∃ id, (∀ c ∈ clients, c.id < id) ∧
      (∀ c ∈ clients, c.login ≠ login) ∧ (∀ c ∈ clients, c.phone_number ≠ phone) ∧
      rows = clients ++ [{ id := id, name := name, login := login, password := password,
                           phone_number := phone, status := Active }] ∧
      seq1 = id ∧ seq < id := by
  unfold AddClientSQL at h
  split at h
  · cases h
  · rename_i id hid
    split at h
    · cases h
    · rename_i hlogin
      split at h
      · cases h
      · rename_i hphone
        cases h
        refine ⟨_, ?_, ?_, ?_, rfl, rfl, nextRowid_fresh hid seq (List.mem_cons_self _ _)⟩
        · intro c hc
          exact nextRowid_fresh hid c.id
            (List.mem_cons_of_mem _ (List.mem_map.mpr ⟨c, hc, rfl⟩))
        · intro c hc hcl
          exact hlogin (List.any_eq_true.mpr ⟨c, hc, by simpa using hcl⟩)
        · intro c hc hcp
          exact hphone (List.any_eq_true.mpr ⟨c, hc, by simpa using hcp⟩)

/-- Claim C7: when `AddClient` returns nil, the store after the call is the store before it
with one more row in `clients`, which carries a new id, the given name, login, password and
phone number and the status "active" (the `sqlite_sequence` entry of the table is that
id); and `Login` with that login and password then returns the phone number and nil. -/
theorem AddClient_ok_then_Login (name login password : String) (phoneNumber : Int)
    (db db1 : Store) (h : AddClient name login password phoneNumber db = (db1, none)) :
    ∃ id, (∀ c ∈ db.clients, c.id ≠ id) ∧
      db1 = { db with clients := db.clients ++
        [{ id := id, name := name, login := login, password := password,
           phone_number := phoneNumber, status := Active }], clientsSeq := id } ∧
      Login login password db1 = (phoneNumber, none) := by
  unfold AddClient at h
  split at h
  · cases h
  · split at h
    · cases h
    · rename_i rows seq1 hrows
      cases h
      obtain ⟨id, hid, hlogin, -, rfl, rfl, -⟩ := AddClientSQL_ok hrows
      refine ⟨seq1, fun c hc => ne_of_lt (hid c hc), rfl, ?_⟩
      have hq : LoginSQL { db with clients := db.clients ++
          [{ id := seq1, name := name, login := login, password := password,
             phone_number := phoneNumber, status := Active }], clientsSeq := seq1 } login
          = [(login, password, phoneNumber, Active)] := by
        unfold LoginSQL
        simp only [List.filter_append]
        rw [filter_key_eq_nil (fun r : ClientRow => r.login) login hlogin]
        simp
      unfold Login
      rw [hq]
      simp [QueryRow, Active, Locked]

/-- The first steps of `TestLogin`: `AddClient("Vasya", "vasya", "1234", 999999999)` on a new
database gives the client id 1, and the login then returns the phone number. -/
theorem AddClient_ok_then_Login_witness :
    ∃ id, (∀ c ∈ emptyStore.clients, c.id ≠ id) ∧
      oneClientStore = { emptyStore with clients := emptyStore.clients ++
        [{ id := id, name := "Vasya", login := "vasya", password := "1234",
           phone_number := 999999999, status := Active }], clientsSeq := id } ∧
      Login "vasya" "1234" oneClientStore = (999999999, none) :=
  AddClient_ok_then_Login "Vasya" "vasya" "1234" 999999999 emptyStore oneClientStore
    (by decide)

/-! ## AddAccount -/

theorem wrapInt64_of_isInt64 {x : Int} (h : isInt64 x) : wrapInt64 x = x := by
  unfold isInt64 minInt64 maxInt64 at h
  unfold wrapInt64
  omega

/-- A successful `AddAccount` for the phone number of a client appends one account row with
a new id, owned by that client, holding `balance * 100` as Go computes it. -/
theorem AddAccount_ok {db db1 : Store} (hwf : WF db) {c : ClientRow} (hc : c ∈ db.clients)
    {balance : Int} (h : AddAccount c.phone_number balance db = (db1, none)) :
    ∃ id, (∀ a ∈ db.accounts, a.id < id) ∧
      db1 = { db with
        accounts := db.accounts ++
          [{ id := id, client_id := c.id,
             balance := Num.fin ((wrapInt64 (balance * 100) : Int) : ℚ) }],
        accountsSeq := id } := by
  have hq : GetClientIdByPhoneNumberSQL db c.phone_number = [c.id] := by
    unfold GetClientIdByPhoneNumberSQL
    rw [filter_key_eq_singleton (fun r : ClientRow => r.phone_number) c.phone_number
      hwf.2.2.1 hc rfl]
    rfl
  unfold AddAccount at h
  rw [hq] at h
  simp only [QueryRow] at h
  split at h
  · cases h
  · rename_i rows seq1 hrows
    cases h
    unfold AddAccountSQL at hrows
    split at hrows
    · cases hrows
    · rename_i id hid
      split at hrows
      · cases hrows
      · split at hrows
        · cases hrows
          exact ⟨seq1, fun a ha => nextRowid_fresh hid a.id
            (List.mem_cons_of_mem _ (List.mem_map.mpr ⟨a, ha, rfl⟩)), rfl⟩
        · cases hrows

/-- Claim C8 as stated fails when `X * 100` leaves the `int64` range, and when it stays in
that range and is not a `float64`.  For the client ("vasya", 999999999),
`AddAccount(999999999, 2^62)` returns nil, the product wraps to 0, and the list of the
client's accounts is the one account with `Balance` 0, not `2^62`; and
`AddAccount(999999999, 90071992547409931)` returns nil, the account holds
9007199254740993100, and the list shows it with `Balance` 90071992547409936. -/
theorem AddAccount_list_overflow_counterexample :
    (∃ c ∈ oneClientStore.clients, c.login = "vasya" ∧ c.phone_number = 999999999) ∧
    (isInt64 (2 ^ 62) ∧
     AddAccount 999999999 (2 ^ 62) oneClientStore = (overflowStore, none) ∧
     GetListOfClientAccounts "vasya" overflowStore = ([{ Id := 1, Balance := 0 }], none) ∧
     ∀ a ∈ (GetListOfClientAccounts "vasya" overflowStore).1, a.Balance ≠ Num.fin (2 ^ 62)) ∧
    (isInt64 (90071992547409931 * 100) ∧
     (AddAccount 999999999 90071992547409931 oneClientStore).2 = none ∧
     balanceOf (AddAccount 999999999 90071992547409931 oneClientStore).1 1
       = some (Num.fin 9007199254740993100) ∧
     GetListOfClientAccounts "vasya" (AddAccount 999999999 90071992547409931 oneClientStore).1
       = ([{ Id := 1, Balance := Num.fin 90071992547409936 }], none)) := by
  refine ⟨by decide, ⟨by decide, by decide!, by decide!, by decide!⟩,
    ⟨by decide, by decide!, by decide!, by decide!⟩⟩

/-- Claim C8, amended: on a database that satisfies the constraints of the schema, for a
client (login, phone) of the store and a major-unit amount `X`, not negative, whose product
`X * 100` is at most `2 ^ 53`, a successful `AddAccount(phone, X)` creates one account
with a new id and `GetListOfClientAccounts(login)` then returns, without error, a list that
contains that account with `Balance` equal to `X`. -/
theorem AddAccount_then_list (login : String) (phoneNumber X : Int) (db db1 : Store)
    (hwf : WF db) (c : ClientRow) (hc : c ∈ db.clients) (hlogin : c.login = login)
    (hphone : c.phone_number = phoneNumber) (hX0 : 0 ≤ X) (hrange : X * 100 ≤ 2 ^ 53)
    (h : AddAccount phoneNumber X db = (db1, none)) :
    ∃ id, (∀ a ∈ db.accounts, a.id ≠ id) ∧
      (∃ row, db1.accounts = db.accounts ++ [row] ∧ row.id = id) ∧
      ∃ accounts, GetListOfClientAccounts login db1 = (accounts, none) ∧
        { Id := id, Balance := Num.fin (X : ℚ) } ∈ accounts := by
  subst hlogin; subst hphone
  obtain ⟨id, hfresh, rfl⟩ := AddAccount_ok hwf hc h
  have hq : GetClientIdByLoginSQL { db with
      accounts := db.accounts ++
        [{ id := id, client_id := c.id,
           balance := Num.fin ((wrapInt64 (X * 100) : Int) : ℚ) }],
      accountsSeq := id } c.login = [c.id] := by
    unfold GetClientIdByLoginSQL
    rw [filter_key_eq_singleton (fun r : ClientRow => r.login) c.login hwf.2.1 hc rfl]
    rfl
  refine ⟨id, fun a ha => ne_of_lt (hfresh a ha), ⟨_, rfl, rfl⟩, ?_⟩
  unfold GetListOfClientAccounts
  rw [hq]
  refine ⟨_, rfl, ?_⟩
  have hint : isInt64 (X * 100) := by
    unfold isInt64 minInt64 maxInt64
    omega
  rw [wrapInt64_of_isInt64 hint]
  have hconv : Num.div (Num.fin ((X * 100 : Int) : ℚ)).toFloat64 100 = Num.fin (X : ℚ) := by
    rw [Num.toFloat64_intCast (X * 100) (by omega)]
    have hq100 : ((X * 100 : Int) : ℚ) / ((100 : Nat) : ℚ) = (X : ℚ) := by
      push_cast
      field_simp
    simp only [Num.ofNat_eq, Num.div]
    rw [if_neg (by norm_num), hq100]
    exact Num.round_int X (by omega) (by omega)
  simp only [GetClientAccountsSQL, List.mem_map, List.mem_filter, List.mem_append,
    List.mem_singleton]
  refine ⟨(id, Num.fin ((X * 100 : Int) : ℚ)), ⟨_, ⟨Or.inr rfl, by simp⟩, rfl⟩, ?_⟩
  simp only [hconv]

/-- The steps of `TestGetListOfClientAccounts`: after `AddAccount(999999999, 20000)` the
list of the accounts of "vasya" contains account 1 with `Balance` 20000. -/
theorem AddAccount_then_list_witness :
    ∃ id, (∀ a ∈ oneClientStore.accounts, a.id ≠ id) ∧
      (∃ row, listedStore.accounts = oneClientStore.accounts ++ [row] ∧ row.id = id) ∧
      ∃ accounts, GetListOfClientAccounts "vasya" listedStore = (accounts, none) ∧
        { Id := id, Balance := Num.fin ((20000 : Int) : ℚ) } ∈ accounts :=
  AddAccount_then_list "vasya" 999999999 20000 oneClientStore listedStore (by decide)
    ⟨1, "Vasya", "vasya", "1234", 999999999, "active"⟩ (by decide) (by decide) (by decide)
    (by decide) (by decide) (by decide!)

/-- Claim C9 as stated fails when `balance * 100` leaves the `int64` range:
`AddAccount(999999999, 2^62)` returns nil and the account it adds holds 0, which is not
`2^62 × 100`. -/
theorem AddAccount_overflow_counterexample :
    isInt64 (2 ^ 62) ∧
    AddAccount 999999999 (2 ^ 62) oneClientStore
      = ({ oneClientStore with accounts := [{ id := 1, client_id := 1, balance := 0 }],
                               accountsSeq := 1 },
         none) ∧
    (0 : ℚ) ≠ (((2 ^ 62 * 100 : Int)) : ℚ) := by
  decide!

/-- Claim C9, amended: on a database that satisfies the constraints of the schema, for the
phone number of an existing client and a balance whose product `balance * 100` is in the
`int64` range, a successful `AddAccount` leaves the store as it was except for exactly one
more account row, which has a new id, is owned by the client with that phone number and
holds `balance × 100` (the `sqlite_sequence` entry of the table is that id). -/
theorem AddAccount_stores_minor_units (phoneNumber balance : Int) (db db1 : Store)
    (hwf : WF db) (c : ClientRow) (hc : c ∈ db.clients) (hphone : c.phone_number = phoneNumber)
    (hrange : isInt64 (balance * 100))
    (h : AddAccount phoneNumber balance db = (db1, none)) :
    ∃ id, (∀ a ∈ db.accounts, a.id ≠ id) ∧
      db1 = { db with
        accounts := db.accounts ++
          [{ id := id, client_id := c.id, balance := Num.fin ((balance : ℚ) * 100) }],
        accountsSeq := id } := by
  subst hphone
  obtain ⟨id, hfresh, rfl⟩ := AddAccount_ok hwf hc h
  refine ⟨id, fun a ha => ne_of_lt (hfresh a ha), ?_⟩
  rw [wrapInt64_of_isInt64 hrange]
  push_cast
  rfl

/-- The successful call of `TestAddAccount`: `AddAccount(999999999, 200000)` stores
20000000 minor units in a new account of client 1. -/
theorem AddAccount_stores_minor_units_witness :
    ∃ id, (∀ a ∈ oneClientStore.accounts, a.id ≠ id) ∧
      fundedStore = { oneClientStore with
        accounts := oneClientStore.accounts ++
          [{ id := id, client_id := 1, balance := Num.fin (((200000 : Int) : ℚ) * 100) }],
        accountsSeq := id } :=
  AddAccount_stores_minor_units 999999999 200000 oneClientStore fundedStore (by decide)
    ⟨1, "Vasya", "vasya", "1234", 999999999, "active"⟩ (by decide) (by decide) (by decide)
    (by decide!)

/-! ## ImportListOfClients -/

theorem insertRow_perm {α : Type} (key : α → Int) (r : α) (l : List α) :
    (insertRow key r l).Perm (r :: l) := by
  induction l with
  | nil => exact List.Perm.refl _
  | cons x xs ih =>
    unfold insertRow
    split
    · exact List.Perm.refl _
    · exact ((List.Perm.cons x ih).trans (List.Perm.swap r x xs))

theorem overwriteClient_login (c : Client) (r : ClientRow) :
    (overwriteClient c r).login = r.login := by
  unfold overwriteClient
  split
  · rename_i h; exact h.symm
  · rfl

theorem overwriteClient_of_ne {c : Client} {r : ClientRow} (h : r.login ≠ c.Login) :
    overwriteClient c r = r := by
  unfold overwriteClient
  rw [if_neg h]

/-- The two ways an upsert of `ImportListOfClients` succeeds: the conflicting row is
overwritten, or no row has the login, id or phone number and the entry is inserted. -/
theorem UpdateListOfClientsSQL_ok {rows rows1 : List ClientRow} {c : Client}
    (h : UpdateListOfClientsSQL rows c = .ok rows1) :
    ((∃ r ∈ rows, r.login = c.Login) ∧
      (∀ r ∈ rows, r.login ≠ c.Login → r.phone_number ≠ c.PhoneNumber) ∧
      rows1 = rows.map (overwriteClient c)) ∨
    ((∀ r ∈ rows, r.login ≠ c.Login) ∧ (∀ r ∈ rows, r.phone_number ≠ c.PhoneNumber) ∧
      rows1 = insertRow (fun r => r.id)
        { id := c.Id, name := c.Name, login := c.Login, password := c.Password,
          phone_number := c.PhoneNumber, status := c.Status } rows) := by
  unfold UpdateListOfClientsSQL at h
  split at h
  · rename_i hlogin
    split at h
    · cases h
    · rename_i hphone
      cases h
      refine Or.inl ⟨?_, ?_, rfl⟩
      · obtain ⟨r, hr, hrl⟩ := List.any_eq_true.mp hlogin
        exact ⟨r, hr, by simpa using hrl⟩
      · intro r hr hne hph
        exact hphone (List.any_eq_true.mpr ⟨r, hr, by simp [hne, hph]⟩)
  · rename_i hlogin
    split at h
    · cases h
    · split at h
      · cases h
      · rename_i hphone
        cases h
        refine Or.inr ⟨?_, ?_, rfl⟩
        · intro r hr hrl
          exact hlogin (List.any_eq_true.mpr ⟨r, hr, by simpa using hrl⟩)
        · intro r hr hrp
          exact hphone (List.any_eq_true.mpr ⟨r, hr, by simpa using hrp⟩)

/-- An upsert keeps the `UNIQUE` constraints of `clients`. -/
theorem UpdateListOfClientsSQL_unique {rows rows1 : List ClientRow} {c : Client}
    (hu : UniqueClients rows) (h : UpdateListOfClientsSQL rows c = .ok rows1) :
    UniqueClients rows1 := by
  obtain ⟨hl, hp⟩ := hu
  rcases UpdateListOfClientsSQL_ok h with ⟨-, hother, rfl⟩ | ⟨hnl, hnp, rfl⟩
  · constructor
    · rw [List.pairwise_map]
      exact hl.imp (fun hab => by simpa [overwriteClient_login] using hab)
    · rw [List.pairwise_map]
      refine (hl.and hp).imp_of_mem ?_
      intro a b ha hb hab
      obtain ⟨hlab, hpab⟩ := hab
      by_cases hca : a.login = c.Login
      · have hcb : b.login ≠ c.Login := fun hcb => hlab (hca.trans hcb.symm)
        rw [overwriteClient_of_ne hcb]
        have : (overwriteClient c a).phone_number = c.PhoneNumber := by
          simp [overwriteClient, hca]
        rw [this]
        exact fun heq => hother b hb hcb heq.symm
      · rw [overwriteClient_of_ne hca]
        by_cases hcb : b.login = c.Login
        · have : (overwriteClient c b).phone_number = c.PhoneNumber := by
            simp [overwriteClient, hcb]
          rw [this]
          exact hother a ha hca
        · rw [overwriteClient_of_ne hcb]
          exact hpab
  · have hperm := insertRow_perm (fun r : ClientRow => r.id)
      { id := c.Id, name := c.Name, login := c.Login, password := c.Password,
        phone_number := c.PhoneNumber, status := c.Status } rows
    constructor
    · rw [List.Perm.pairwise_iff (fun hxy => Ne.symm hxy) hperm, List.pairwise_cons]
      exact ⟨fun r hr heq => hnl r hr heq.symm, hl⟩
    · rw [List.Perm.pairwise_iff (fun hxy => Ne.symm hxy) hperm, List.pairwise_cons]
      exact ⟨fun r hr heq => hnp r hr heq.symm, hp⟩

/-- After its upsert the table holds the entry. -/
theorem UpdateListOfClientsSQL_holds {rows rows1 : List ClientRow} {c : Client}
    (h : UpdateListOfClientsSQL rows c = .ok rows1) : holdsClient rows1 c := by
  rcases UpdateListOfClientsSQL_ok h with ⟨⟨r, hr, hrl⟩, -, rfl⟩ | ⟨-, -, rfl⟩
  · refine ⟨overwriteClient c r, List.mem_map.mpr ⟨r, hr, rfl⟩, ?_⟩
    simp [overwriteClient, hrl]
  · refine ⟨_, (insertRow_perm _ _ rows).mem_iff.mpr (List.mem_cons_self _ _), ?_⟩
    simp

/-- The upsert of an entry with another login keeps what the table holds. -/
theorem UpdateListOfClientsSQL_keeps {rows rows1 : List ClientRow} {c d : Client}
    (hd : holdsClient rows d) (hne : d.Login ≠ c.Login)
    (h : UpdateListOfClientsSQL rows c = .ok rows1) : holdsClient rows1 d := by
  obtain ⟨r, hr, hrl, hrest⟩ := hd
  have hrc : r.login ≠ c.Login := fun heq => hne (hrl.symm.trans heq)
  rcases UpdateListOfClientsSQL_ok h with ⟨-, -, rfl⟩ | ⟨-, -, rfl⟩
  · exact ⟨r, List.mem_map.mpr ⟨r, hr, overwriteClient_of_ne hrc⟩, hrl, hrest⟩
  · exact ⟨r, (insertRow_perm _ _ rows).mem_iff.mpr (List.mem_cons_of_mem _ hr), hrl, hrest⟩

/-- The upsert of an entry the table already holds changes nothing. -/
theorem UpdateListOfClientsSQL_fixed {rows : List ClientRow} {c : Client}
    (hu : UniqueClients rows) (hc : holdsClient rows c) :
    UpdateListOfClientsSQL rows c = .ok rows := by
  obtain ⟨hl, hp⟩ := hu
  obtain ⟨r, hr, hrl, hrn, hrpw, hrph, hrs⟩ := hc
  have hany : rows.any (fun r => r.login = c.Login) = true :=
    List.any_eq_true.mpr ⟨r, hr, by simpa using hrl⟩
  have hnone : ¬ (rows.any (fun r => r.login ≠ c.Login ∧ r.phone_number = c.PhoneNumber)
      = true) := by
    intro hex
    obtain ⟨x, hx, hxp⟩ := List.any_eq_true.mp hex
    simp only [ne_eq, decide_eq_true_eq] at hxp
    have hxr : x ≠ r := fun heq => hxp.1 (heq ▸ hrl)
    exact hp.forall (fun _ _ hxy => Ne.symm hxy) hx hr hxr (hxp.2.trans hrph.symm)
  have hmap : rows.map (overwriteClient c) = rows := by
    have : ∀ x ∈ rows, overwriteClient c x = id x := by
      intro x hx
      by_cases hxl : x.login = c.Login
      · have hxr : x = r := by
          by_contra hne
          exact hl.forall (fun _ _ hxy => Ne.symm hxy) hx hr hne (hxl.trans hrl.symm)
        subst hxr
        cases x
        simp only [overwriteClient, id] at *
        simp [hrl, hrn, hrpw, hrph, hrs]
      · exact overwriteClient_of_ne hxl
    rw [List.map_congr_left this, List.map_id]
  unfold UpdateListOfClientsSQL
  rw [if_pos hany, if_neg hnone, hmap]

/-- A successful import keeps the `UNIQUE` constraints, holds every entry of a list with
distinct logins afterwards, and keeps holding what it held for other logins. -/
theorem importClientsLoop_holds : ∀ (clients : List Client) (rows rows1 : List ClientRow),
    UniqueClients rows → (clients.map (fun c => c.Login)).Nodup →
    importClientsLoop clients rows = .ok rows1 →
    UniqueClients rows1 ∧
      ∀ d : Client, (d ∈ clients ∨
        (holdsClient rows d ∧ d.Login ∉ clients.map (fun c => c.Login))) →
        holdsClient rows1 d := by
  intro clients
  induction clients with
  | nil =>
    intro rows rows1 hu _ h
    simp only [importClientsLoop, Except.ok.injEq] at h
    subst h
    refine ⟨hu, ?_⟩
    intro d hd
    rcases hd with hd | hd
    · cases hd
    · exact hd.1
  | cons c cs ih =>
    intro rows rows1 hu hnd h
    rw [List.map_cons, List.nodup_cons] at hnd
    unfold importClientsLoop at h
    split at h
    · cases h
    · rename_i rowsM hM
      obtain ⟨hu1, hall⟩ := ih rowsM rows1 (UpdateListOfClientsSQL_unique hu hM) hnd.2 h
      refine ⟨hu1, ?_⟩
      intro d hd
      rcases hd with hd | ⟨hd, hnot⟩
      · rcases List.mem_cons.mp hd with rfl | hmem
        · exact hall d (Or.inr ⟨UpdateListOfClientsSQL_holds hM, hnd.1⟩)
        · exact hall d (Or.inl hmem)
      · rw [List.map_cons, List.mem_cons, not_or] at hnot
        exact hall d (Or.inr ⟨UpdateListOfClientsSQL_keeps hd hnot.1 hM, hnot.2⟩)

/-- The import of entries the table already holds changes nothing. -/
theorem importClientsLoop_fixed : ∀ (clients : List Client) (rows : List ClientRow),
    UniqueClients rows → (∀ c ∈ clients, holdsClient rows c) →
    importClientsLoop clients rows = .ok rows := by
  intro clients
  induction clients with
  | nil => intro rows _ _; rfl
  | cons c cs ih =>
    intro rows hu hall
    unfold importClientsLoop
    rw [UpdateListOfClientsSQL_fixed hu (hall c (List.mem_cons_self _ _))]
    exact ih rows hu (fun d hd => hall d (List.mem_cons_of_mem _ hd))

/-- Claim C10 as stated fails for a list in which a login occurs twice: the import of
`duplicateLoginImport` into a new database succeeds, and the second import of the same
list fails on the `UNIQUE` constraint of `phone_number`, because its first entry moves the
row "a" back to the phone number 5 that the row "b" now has. -/
theorem ImportListOfClients_twice_counterexample :
    ImportListOfClients duplicateLoginImport emptyStore = (duplicateLoginStore, none) ∧
    ImportListOfClients duplicateLoginImport duplicateLoginStore
      = (duplicateLoginStore, some Error.ErrConstraintUnique) := by
  decide

/-- Claim C10, amended: on a database that satisfies the constraints of the schema, when
`ImportListOfClients` succeeds for a list whose entries have pairwise distinct logins,
importing the same list a second time succeeds too and leaves the store, and so the
clients table, as it was after the first import. -/
theorem ImportListOfClients_idempotent (clients : List Client) (db db1 : Store) (hwf : WF db)
    (hnodup : (clients.map (fun c => c.Login)).Nodup)
    (h : ImportListOfClients clients db = (db1, none)) :
    ImportListOfClients clients db1 = (db1, none) := by
  have hu : UniqueClients db.clients := ⟨hwf.2.1, hwf.2.2.1⟩
  unfold ImportListOfClients at h
  split at h
  · cases h
  · rename_i rows hrows
    cases h
    obtain ⟨hu1, hall⟩ := importClientsLoop_holds clients db.clients rows hu hnodup hrows
    unfold ImportListOfClients
    simp only
    rw [importClientsLoop_fixed clients rows hu1 (fun c hc => hall c (Or.inl hc))]
    simp only [foldl_max_idem]

/-- The import of a list of two clients with the logins "a" and "b" into a new database,
twice. -/
theorem ImportListOfClients_idempotent_witness :
    ImportListOfClients distinctLoginImport distinctLoginStore = (distinctLoginStore, none) :=
  ImportListOfClients_idempotent distinctLoginImport emptyStore distinctLoginStore
    (by decide) (by decide) (by decide)

/-! ## GetListOfClientsFormatted -/

theorem ClientRow.toClient_injective : Function.Injective ClientRow.toClient := by
  intro a b h
  cases a; cases b
  simp only [ClientRow.toClient, Client.mk.injEq] at h
  obtain ⟨h1, h2, h3, h4, h5, h6⟩ := h
  subst h1 h2 h3 h4 h5 h6
  rfl

theorem GetListOfClientsFormattedSQL_eq (db : Store) (limit offset : Int) (hl : 0 ≤ limit) :
    GetListOfClientsFormattedSQL db limit offset
      = ((db.clients.insertionSort (fun a b => b.name ≤ a.name)).drop offset.toNat).take
          limit.toNat := by
  unfold GetListOfClientsFormattedSQL
  simp only
  rw [if_neg (not_lt.mpr hl)]

theorem sorted_clients_nodup {db : Store} (hwf : WF db) :
    (db.clients.insertionSort (fun a b => b.name ≤ a.name)).Nodup := by
  rw [(List.perm_insertionSort _ db.clients).nodup_iff]
  exact hwf.1.imp (fun hab heq => by rw [heq] at hab; exact lt_irrefl _ hab)

/-- Claim C11: on a database that satisfies the constraints of the schema, for a limit and
an offset that are not negative, `GetListOfClientsFormatted(limit, offset)` returns without
error exactly `min(limit, max(0, n − offset))` of the `n` clients, and the page that
follows, `(limit, offset + limit)`, shares no client with it; with 12 clients the page
`(10, 0)` has 10 entries, the page `(10, 10)` has 2, and the two pages together are the 12
clients. -/
theorem GetListOfClientsFormatted_pages (limit offset : Int) (db : Store) (hwf : WF db)
    (hl : 0 ≤ limit) (ho : 0 ≤ offset) :
    ∃ page next : List Client,
      GetListOfClientsFormatted limit offset db = (page, none) ∧
      GetListOfClientsFormatted limit (offset + limit) db = (next, none) ∧
      (page.length : Int) = min limit (max 0 ((db.clients.length : Int) - offset)) ∧
      (∀ c ∈ page, c ∉ next) ∧
      (db.clients.length = 12 → limit = 10 → offset = 0 →
        page.length = 10 ∧ next.length = 2 ∧
        (page ++ next).Perm (db.clients.map ClientRow.toClient)) := by
  refine ⟨_, _, rfl, rfl, ?_, ?_, ?_⟩
  · rw [GetListOfClientsFormattedSQL_eq db limit offset hl]
    simp only [List.length_map, List.length_take, List.length_drop,
      List.length_insertionSort]
    omega
  · rw [GetListOfClientsFormattedSQL_eq db limit offset hl,
      GetListOfClientsFormattedSQL_eq db limit (offset + limit) hl]
    have hnd := sorted_clients_nodup hwf
    have hsum : (offset + limit).toNat = offset.toNat + limit.toNat := by omega
    rw [hsum, List.take_drop]
    intro c hc hc2
    obtain ⟨r, hr, hrc⟩ := List.mem_map.mp hc
    obtain ⟨r2, hr2, hrc2⟩ := List.mem_map.mp hc2
    have heq : r2 = r := ClientRow.toClient_injective (hrc2.trans hrc.symm)
    subst heq
    exact List.disjoint_take_drop hnd (le_refl _) (List.mem_of_mem_drop hr)
      (List.mem_of_mem_take hr2)
  · intro hn h10 h0
    subst h10; subst h0
    rw [GetListOfClientsFormattedSQL_eq db 10 0 (by decide),
      GetListOfClientsFormattedSQL_eq db 10 (0 + 10) (by decide)]
    have hlen : (db.clients.insertionSort (fun a b => b.name ≤ a.name)).length = 12 := by
      rw [List.length_insertionSort]; exact hn
    have htake : List.take (10 : Int).toNat (List.drop (0 + 10 : Int).toNat
        (db.clients.insertionSort (fun a b => b.name ≤ a.name)))
        = List.drop 10 (db.clients.insertionSort (fun a b => b.name ≤ a.name)) := by
      apply List.take_of_length_le
      rw [List.length_drop, hlen]
      decide
    have hdrop : List.take (10 : Int).toNat (List.drop (0 : Int).toNat
        (db.clients.insertionSort (fun a b => b.name ≤ a.name)))
        = List.take 10 (db.clients.insertionSort (fun a b => b.name ≤ a.name)) := rfl
    rw [htake, hdrop]
    refine ⟨?_, ?_, ?_⟩
    · rw [List.length_map, List.length_take, hlen]; rfl
    · rw [List.length_map, List.length_drop, hlen]
    · rw [← List.map_append, List.take_append_drop]
      exact (List.perm_insertionSort _ db.clients).map _

/-- The two pages of ten of the database with twelve clients. -/
theorem GetListOfClientsFormatted_pages_witness :
    ∃ page next : List Client,
      GetListOfClientsFormatted 10 0 twelveClientsStore = (page, none) ∧
      GetListOfClientsFormatted 10 (0 + 10) twelveClientsStore = (next, none) ∧
      (page.length : Int) = min 10 (max 0 ((twelveClientsStore.clients.length : Int) - 0)) ∧
      (∀ c ∈ page, c ∉ next) ∧
      (twelveClientsStore.clients.length = 12 → (10 : Int) = 10 → (0 : Int) = 0 →
        page.length = 10 ∧ next.length = 2 ∧
        (page ++ next).Perm (twelveClientsStore.clients.map ClientRow.toClient)) :=
  GetListOfClientsFormatted_pages 10 0 twelveClientsStore (by decide!) (by decide) (by decide)

/-! ## ChangeClientStatus -/

/-- Claim C12: if no client has the phone number, `ChangeClientStatus` returns
`ErrPhoneNumberNotExist` and the store is unchanged; otherwise it returns nil and the store
after the call is the store before it except that every `clients` row with that phone
number has the given status: the other columns of that row, the other clients, and the
accounts, journal, services and ATMs are as before. -/
theorem ChangeClientStatus_frame (phoneNumber : Int) (status : String) (db : Store) :
    ((∀ c ∈ db.clients, c.phone_number ≠ phoneNumber) →
      ChangeClientStatus phoneNumber status db = (db, some Error.ErrPhoneNumberNotExist)) ∧
    ((∃ c ∈ db.clients, c.phone_number = phoneNumber) →
      ChangeClientStatus phoneNumber status db =
        ({ db with clients := db.clients.map (fun r =>
            if r.phone_number = phoneNumber then
              { id := r.id, name := r.name, login := r.login, password := r.password,
                phone_number := r.phone_number, status := status }
            else r) }, none)) := by
  constructor
  · intro h
    have hno : ¬ ∃ c ∈ db.clients, c.phone_number = phoneNumber :=
      fun ⟨c, hc, hcp⟩ => h c hc hcp
    unfold ChangeClientStatus
    rw [checkClientExist_eq]
    simp [hno, errorsIs]
  · intro h
    unfold ChangeClientStatus
    rw [checkClientExist_eq]
    simp only [ne_eq, not_true_eq_false, false_and, if_false, if_pos h]
    simp [errorsIs, Error.is, ChangeClientStatusSQL]

/-- The calls of `TestChangeClientStatus`: the phone number 0 is unknown, the phone number
999999999 is the client's. -/
theorem ChangeClientStatus_frame_witness :
    ChangeClientStatus 0 Active oneClientStore
      = (oneClientStore, some Error.ErrPhoneNumberNotExist) ∧
    ChangeClientStatus 999999999 Locked oneClientStore =
      ({ oneClientStore with clients := oneClientStore.clients.map (fun r =>
          if r.phone_number = 999999999 then
            { id := r.id, name := r.name, login := r.login, password := r.password,
              phone_number := r.phone_number, status := Locked }
          else r) }, none) :=
  ⟨(ChangeClientStatus_frame 0 Active oneClientStore).1 (by decide),
   (ChangeClientStatus_frame 999999999 Locked oneClientStore).2
      ⟨⟨1, "Vasya", "vasya", "1234", 999999999, "active"⟩, by decide, by decide⟩⟩

/-! ## AddService and AddAtm -/

theorem foldl_max_lt {b : Int} (l : List Int) :
    ∀ a : Int, a < b → (∀ x ∈ l, x < b) → l.foldl max a < b := by
  induction l with
  | nil => intro a ha _; exact ha
  | cons y ys ih =>
    intro a ha h
    exact ih (max a y) (max_lt ha (h y (List.mem_cons_self _ _)))
      (fun x hx => h x (List.mem_cons_of_mem _ hx))

/-- A table that has never held the largest `int64` rowid gives the next row an id. -/
theorem nextRowid_ok (ids : List Int) (h : ∀ x ∈ ids, x < maxInt64) :
    ∃ id, nextRowid ids = .ok id := by
  have hlt : ids.foldl max 0 < maxInt64 := foldl_max_lt ids 0 (by decide) h
  unfold nextRowid
  simp only
  rw [if_neg (not_le.mpr hlt)]
  exact ⟨_, rfl⟩

theorem checkServiceExist_present {name : String} {db : Store}
    (h : ∃ r ∈ db.services, r.name = name) :
    checkServiceExist name db = some Error.ErrServiceExist := by
  obtain ⟨r, hr, hn⟩ := h
  have hmem : r.name ∈ ServiceExistSQL db name := by
    unfold ServiceExistSQL
    exact List.mem_map.mpr ⟨r, List.mem_filter.mpr ⟨hr, by simpa using hn⟩, rfl⟩
  unfold checkServiceExist
  rw [errorsIs_scanErr_QueryRow]
  cases hq : ServiceExistSQL db name with
  | nil => rw [hq] at hmem; cases hmem
  | cons _ _ => simp

theorem checkATMExist_present {location : String} {db : Store}
    (h : ∃ r ∈ db.atms, r.location = location) :
    checkATMExist location db = some Error.ErrATMExist := by
  obtain ⟨r, hr, hn⟩ := h
  have hmem : r.location ∈ AtmExistSQL db location := by
    unfold AtmExistSQL
    exact List.mem_map.mpr ⟨r, List.mem_filter.mpr ⟨hr, by simpa using hn⟩, rfl⟩
  unfold checkATMExist
  rw [errorsIs_scanErr_QueryRow]
  cases hq : AtmExistSQL db location with
  | nil => rw [hq] at hmem; cases hmem
  | cons _ _ => simp

theorem checkATMExist_absent {location : String} {db : Store}
    (h : ∀ r ∈ db.atms, r.location ≠ location) : checkATMExist location db = none := by
  unfold checkATMExist AtmExistSQL
  rw [errorsIs_scanErr_QueryRow, filter_key_eq_nil (fun r : AtmRow => r.location) location h]
  simp

/-- Claim C13 as stated fails once the table has held the largest rowid: after
`ImportListOfATMs` of an ATM with the id 9223372036854775807, `AddAtm` with a location no
ATM has does not succeed; `AUTOINCREMENT` has no rowid left and the insert fails. -/
theorem AddAtm_full_counterexample :
    isInt64 9223372036854775807 ∧
    (∀ r ∈ lastRowidAtmStore.atms, r.location ≠ "location2") ∧
    AddAtm "Oson" "location2" lastRowidAtmStore = (lastRowidAtmStore, some Error.ErrFull) := by
  decide

/-- Claim C13, amended: `AddService` fails with `ErrServiceExist` when a service has the
name, and `AddAtm` fails with `ErrATMExist` when an ATM has the location, whatever its
name, and the store is unchanged; when no row has the name or location and the table has
never held the largest `int64` rowid, the call returns nil and the store is the store
before it with exactly one more row, which has a new id and the given columns. -/
theorem AddService_AddAtm_uniqueness (name location : String) (db : Store) :
    ((∃ r ∈ db.services, r.name = name) →
      AddService name db = (db, some Error.ErrServiceExist)) ∧
    ((∃ r ∈ db.atms, r.location = location) →
      AddAtm name location db = (db, some Error.ErrATMExist)) ∧
    ((∀ r ∈ db.services, r.name ≠ name) → (∀ r ∈ db.services, r.id < maxInt64) →
      ∃ id, (∀ r ∈ db.services, r.id ≠ id) ∧
        AddService name db
          = ({ db with services := db.services ++ [{ id := id, name := name }] }, none)) ∧
    ((∀ r ∈ db.atms, r.location ≠ location) → (∀ r ∈ db.atms, r.id < maxInt64) →
      db.atmsSeq < maxInt64 →
      ∃ id, (∀ r ∈ db.atms, r.id ≠ id) ∧
        AddAtm name location db
          = ({ db with atms := db.atms ++ [{ id := id, name := name, location := location }],
                       atmsSeq := id }, none)) := by
  refine ⟨?_, ?_, ?_, ?_⟩
  · intro h
    unfold AddService
    rw [checkServiceExist_present h]
  · intro h
    unfold AddAtm
    rw [checkATMExist_present h]
  · intro habs hids
    obtain ⟨id, hid⟩ := nextRowid_ok (db.services.map (fun r => r.id))
      (fun x hx => by
        obtain ⟨r, hr, rfl⟩ := List.mem_map.mp hx
        exact hids r hr)
    have hany : ¬ (db.services.any (fun r => r.name = name) = true) := by
      intro hex
      obtain ⟨r, hr, hrn⟩ := List.any_eq_true.mp hex
      exact habs r hr (by simpa using hrn)
    refine ⟨id, ?_, ?_⟩
    · intro r hr
      exact ne_of_lt (nextRowid_fresh hid r.id (List.mem_map.mpr ⟨r, hr, rfl⟩))
    · unfold AddService AddServiceSQL
      rw [checkServiceExist_absent habs, hid]
      simp only
      rw [if_neg hany]
  · intro habs hids hseq
    obtain ⟨id, hid⟩ := nextRowid_ok (db.atmsSeq :: db.atms.map (fun r => r.id))
      (fun x hx => by
        rcases List.mem_cons.mp hx with rfl | hmem
        · exact hseq
        · obtain ⟨r, hr, rfl⟩ := List.mem_map.mp hmem
          exact hids r hr)
    have hany : ¬ (db.atms.any (fun r => r.location = location) = true) := by
      intro hex
      obtain ⟨r, hr, hrn⟩ := List.any_eq_true.mp hex
      exact habs r hr (by simpa using hrn)
    refine ⟨id, ?_, ?_⟩
    · intro r hr
      exact ne_of_lt (nextRowid_fresh hid r.id
        (List.mem_cons_of_mem _ (List.mem_map.mpr ⟨r, hr, rfl⟩)))
    · unfold AddAtm AddAtmSQL
      rw [checkATMExist_absent habs, hid]
      simp only
      rw [if_neg hany]

/-- The calls of `TestAddService` and `TestAddATM`: "svet" and "location1" are added to a
new database, and adding them again fails. -/
theorem AddService_AddAtm_uniqueness_witness :
    AddService "svet" serviceAtmStore = (serviceAtmStore, some Error.ErrServiceExist) ∧
    AddAtm "Oson" "location1" serviceAtmStore = (serviceAtmStore, some Error.ErrATMExist) ∧
    (∃ id, (∀ r ∈ emptyStore.services, r.id ≠ id) ∧
      AddService "svet" emptyStore
        = ({ emptyStore with services := emptyStore.services ++ [{ id := id, name := "svet" }] },
           none)) ∧
    (∃ id, (∀ r ∈ emptyStore.atms, r.id ≠ id) ∧
      AddAtm "Oson" "location1" emptyStore
        = ({ emptyStore with
              atms := emptyStore.atms ++ [{ id := id, name := "Oson", location := "location1" }],
              atmsSeq := id }, none)) :=
  ⟨(AddService_AddAtm_uniqueness "svet" "location1" serviceAtmStore).1
      ⟨⟨1, "svet"⟩, by decide, by decide⟩,
   (AddService_AddAtm_uniqueness "Oson" "location1" serviceAtmStore).2.1
      ⟨⟨1, "Oson", "location1"⟩, by decide, by decide⟩,
   (AddService_AddAtm_uniqueness "svet" "location1" emptyStore).2.2.1
      (by decide) (by decide),
   (AddService_AddAtm_uniqueness "Oson" "location1" emptyStore).2.2.2
      (by decide) (by decide) (by decide)⟩

/-! ## The journal rows of the payment and the transfers -/

theorem QueryRow_GetClientIdByLoginSQL {db : Store} {login : String} {clientId : Int}
    (h : QueryRow (GetClientIdByLoginSQL db login) = .ok clientId) :
    ∃ c ∈ db.clients, c.login = login ∧ c.id = clientId := by
  unfold GetClientIdByLoginSQL at h
  cases hf : db.clients.filter (fun r => r.login = login) with
  | nil => rw [hf] at h; cases h
  | cons c rest =>
    rw [hf] at h
    simp only [List.map_cons, QueryRow, Except.ok.injEq] at h
    have hmem : c ∈ db.clients.filter (fun r => r.login = login) := by
      rw [hf]; exact List.mem_cons_self _ _
    obtain ⟨hc, hcl⟩ := List.mem_filter.mp hmem
    exact ⟨c, hc, by simpa using hcl, h⟩

/-- A `PayForService` call that returns nil has found the service and the payer, run the
debit statement and added one journal row. -/
theorem PayForService_ok {nameOfService login date : String} {accountId : Int} {amount : Num}
    {db db1 : Store}
    (h : PayForService nameOfService accountId login amount date db = (db1, none)) :
    ∃ clientId accounts journal,
      QueryRow (GetClientIdByLoginSQL db login) = .ok clientId ∧
      UpdateClientBalanceSQL db.accounts accountId
        (Num.mul (Num.fin (-1)) (Num.mul amount 100)) = .ok accounts ∧
      AddToJournalSQL db.journal date clientId Service nameOfService (Num.mul amount 100)
        = .ok journal ∧
      db1 = { db with accounts := accounts, journal := journal } := by
  unfold PayForService at h
  split at h
  · cases h
  · split at h
    · cases h
    · rename_i clientId hq
      simp only at h
      split at h
      · cases h
      · rename_i accounts h1
        split at h
        · cases h
        · rename_i journal h2
          cases h
          exact ⟨clientId, accounts, journal, hq, h1, h2, rfl⟩

theorem find?_map_addToBalance_other {id k : Int} (hne : k ≠ id) (x : Num)
    (l : List AccountRow) :
    ((l.map (addToBalance id x)).find? (fun r => r.id = k)).map (fun r => r.balance)
      = (l.find? (fun r => r.id = k)).map (fun r => r.balance) := by
  rw [find?_map_addToBalance]
  cases hf : l.find? (fun r => r.id = k) with
  | none => rfl
  | some r =>
    have hid : r.id = k := by simpa using List.find?_some hf
    have hne2 : ¬ r.id = id := fun h => hne (hid.symm.trans h)
    simp [addToBalance, hne2]

/-- A `PayForService` call that returns nil debits the account with the given id, when
there is one, by the `float64` product `amount × 100` in `float64` arithmetic, and changes
no other balance. -/
theorem PayForService_debit {nameOfService login date : String} {accountId : Int}
    {amount : Num} {db db1 : Store}
    (h : PayForService nameOfService accountId login amount date db = (db1, none)) :
    (∀ a, balanceOf db accountId = some a →
      balanceOf db1 accountId
        = some (Num.add a.toFloat64 (Num.mul (Num.fin (-1)) (Num.mul amount 100)))) ∧
    (∀ k, k ≠ accountId → balanceOf db1 k = balanceOf db k) := by
  obtain ⟨clientId, accounts, journal, -, h1, -, rfl⟩ := PayForService_ok h
  have e1 := UpdateClientBalanceSQL_ok h1
  subst e1
  constructor
  · intro a ha
    unfold balanceOf at ha ⊢
    simp only [find?_map_addToBalance]
    cases hf : db.accounts.find? (fun r => r.id = accountId) with
    | none => simp [hf] at ha
    | some r =>
      have hid : r.id = accountId := by simpa using List.find?_some hf
      simp only [hf, Option.map_some', Option.some.injEq] at ha ⊢
      subst ha
      simp only [addToBalance, hid, ↓reduceIte]
  · intro k hk
    exact find?_map_addToBalance_other hk _ _

/-- Claim C15, the failing call: in the database of `TestPayForService` no account has the
id 99, and `PayForService("Water", 99, "vasya", 2000)` returns nil: the debit statement
updates no row without an error, the journal row of the payment is added, and every
account is as before. -/
theorem PayForService_missing_account :
    (∀ a ∈ payTestStore.accounts, a.id ≠ 99) ∧
    PayForService "Water" 99 "vasya" 2000 "11-02-2026 10:00:00" payTestStore
      = ({ payTestStore with journal := payTestStore.journal ++
            [{ id := 1, date := "11-02-2026 10:00:00", client_id := 1, kind := "service",
               transferred_to := "Water", amount := 200000 }] }, none) := by
  decide!

/-- Claim C20, the failing call: in the database of `TestPayForService` the service "Water"
exists and no client has the login "nobody"; `PayForService("Water", 1, "nobody", 2000)`
returns the query error of the payer lookup and leaves the transaction it began open
(`openTx` goes from 0 to 1), with accounts and journal as before. -/
theorem PayForService_unknown_login_leaves_tx_open :
    payTestStore.openTx = 0 ∧
    PayForService "Water" 1 "nobody" 2000 "11-02-2026 10:00:00" payTestStore
      = ({ payTestStore with openTx := 1 },
         some (Error.QueryError "GetClientIdByLoginSQL" Error.ErrNoRows)) := by
  decide!

/-! ## ImportListOfAccounts -/

/-- Claim C17, the failing call: the database of `TestAddAccount` holds account 1 with
20000000 minor units; `GetListOfAccountsWithClients` returns it with `Balance` 200000, and
`ImportListOfAccounts` of that list stores 200000, not 20000000: the import binds
`Balance` without the factor 100. -/
theorem ImportListOfAccounts_roundtrip_divides :
    fundedStore.accounts = [{ id := 1, client_id := 1, balance := 20000000 }] ∧
    GetListOfAccountsWithClients fundedStore
      = ([{ Id := 1, ClientId := 1, Balance := 200000 }], none) ∧
    ImportListOfAccounts (GetListOfAccountsWithClients fundedStore).1 fundedStore
      = ({ fundedStore with accounts := [{ id := 1, client_id := 1, balance := 200000 }] },
         none) := by
  decide!

/-! ## The balance CHECK as an invariant -/

theorem UpdateClientBalanceSQL_nonneg {accounts accounts1 : List AccountRow} {id : Int}
    {x : Num} (hnn : ∀ a ∈ accounts, 0 ≤ a.balance)
    (h : UpdateClientBalanceSQL accounts id x = .ok accounts1) :
    ∀ a ∈ accounts1, 0 ≤ a.balance := by
  unfold UpdateClientBalanceSQL at h
  split at h
  · cases h
  · split at h
    · cases h
    · rename_i hany
      cases h
      intro a ha
      obtain ⟨r, hr, rfl⟩ := List.mem_map.mp ha
      unfold addToBalance
      split
      · rename_i hid
        by_contra hneg
        exact hany (List.any_eq_true.mpr ⟨r, hr, by simpa [hid] using hneg⟩)
      · exact hnn r hr

theorem UpdateListOfAccountsWithClientIdsSQL_nonneg {accounts accounts1 : List AccountRow}
    {e : AccountWithClientId} (hnn : ∀ a ∈ accounts, 0 ≤ a.balance)
    (h : UpdateListOfAccountsWithClientIdsSQL accounts e = .ok accounts1) :
    ∀ a ∈ accounts1, 0 ≤ a.balance := by
  unfold UpdateListOfAccountsWithClientIdsSQL at h
  split at h
  · cases h
  · split at h
    · cases h
    · rename_i hbal
      have hbal' : 0 ≤ e.Balance := not_not.mp hbal
      split at h
      · cases h
        intro a ha
        obtain ⟨r, hr, rfl⟩ := List.mem_map.mp ha
        split
        · exact hbal'
        · exact hnn r hr
      · cases h
        intro a ha
        rcases List.mem_cons.mp ((insertRow_perm _ _ accounts).mem_iff.mp ha) with rfl | hmem
        · exact hbal'
        · exact hnn a hmem

theorem importAccountsLoop_nonneg : ∀ (entries : List AccountWithClientId)
    (accounts accounts1 : List AccountRow), (∀ a ∈ accounts, 0 ≤ a.balance) →
    importAccountsLoop entries accounts = .ok accounts1 → ∀ a ∈ accounts1, 0 ≤ a.balance := by
  intro entries
  induction entries with
  | nil =>
    intro accounts accounts1 hnn h
    simp only [importAccountsLoop, Except.ok.injEq] at h
    subst h
    exact hnn
  | cons e es ih =>
    intro accounts accounts1 hnn h
    unfold importAccountsLoop at h
    split at h
    · cases h
    · rename_i rows1 h1
      exact ih rows1 accounts1 (UpdateListOfAccountsWithClientIdsSQL_nonneg hnn h1) h

theorem transferTx_nonneg (targetAccountId : Int) (login : String) (accountId : Int)
    (amount : Num) (target date : String) {db : Store}
    (hnn : ∀ a ∈ db.accounts, 0 ≤ a.balance) :
    ∀ a ∈ (transferTx targetAccountId login accountId amount target date db).1.accounts,
      0 ≤ a.balance := by
  cases hres : transferTx targetAccountId login accountId amount target date db with
  | mk db1 err =>
    cases err with
    | some e => rw [transferTx_error hres]; exact hnn
    | none =>
      obtain ⟨clientId, accounts1, accounts2, journal, -, h1, h2, -, rfl⟩ := transferTx_ok hres
      exact UpdateClientBalanceSQL_nonneg (UpdateClientBalanceSQL_nonneg hnn h1) h2

theorem PayForService_nonneg (nameOfService : String) (accountId : Int) (login : String)
    (amount : Num) (date : String) {db : Store} (hnn : ∀ a ∈ db.accounts, 0 ≤ a.balance) :
    ∀ a ∈ (PayForService nameOfService accountId login amount date db).1.accounts,
      0 ≤ a.balance := by
  unfold PayForService
  split
  · exact hnn
  · split
    · exact hnn
    · simp only
      split
      · exact hnn
      · rename_i accounts h1
        split
        · exact hnn
        · exact UpdateClientBalanceSQL_nonneg hnn h1

theorem AddAccount_nonneg (phoneNumber balance : Int) {db : Store}
    (hnn : ∀ a ∈ db.accounts, 0 ≤ a.balance) :
    ∀ a ∈ (AddAccount phoneNumber balance db).1.accounts, 0 ≤ a.balance := by
  unfold AddAccount
  split
  · exact hnn
  · simp only
    split
    · exact hnn
    · rename_i rows seq1 hrows
      unfold AddAccountSQL at hrows
      split at hrows
      · cases hrows
      · split at hrows
        · cases hrows
        · split at hrows
          · rename_i hpos
            cases hrows
            intro a ha
            rcases List.mem_append.mp ha with hmem | hmem
            · exact hnn a hmem
            · rw [List.mem_singleton] at hmem
              subst hmem
              exact hpos
          · cases hrows

theorem AddClient_accounts (name login password : String) (phoneNumber : Int) (db : Store) :
    (AddClient name login password phoneNumber db).1.accounts = db.accounts := by
  unfold AddClient
  split
  · rfl
  · split <;> rfl

theorem AddService_accounts (name : String) (db : Store) :
    (AddService name db).1.accounts = db.accounts := by
  unfold AddService
  split
  · rfl
  · split <;> rfl

theorem AddAtm_accounts (name location : String) (db : Store) :
    (AddAtm name location db).1.accounts = db.accounts := by
  unfold AddAtm
  split
  · rfl
  · split <;> rfl

theorem ImportListOfClients_accounts (clients : List Client) (db : Store) :
    (ImportListOfClients clients db).1.accounts = db.accounts := by
  unfold ImportListOfClients
  split <;> rfl

theorem ChangeClientStatus_accounts (phoneNumber : Int) (status : String) (db : Store) :
    (ChangeClientStatus phoneNumber status db).1.accounts = db.accounts := by
  unfold ChangeClientStatus
  split <;> rfl

/-- Claim C16: in every store that can be reached from the new database by calls of
`AddClient`, `AddAccount`, `AddService`, `AddAtm`, `PayForService`,
`TransferToByAccountId`, `TransferToByPhoneNumber`, `ImportListOfClients`,
`ImportListOfAccounts`, `ImportListOfATMs` and `ChangeClientStatus`, whatever they return,
the stored balance of every account is at least 0. -/
theorem balances_nonneg_of_reachable (db : Store) (h : Reachable db) :
    ∀ a ∈ db.accounts, 0 ≤ a.balance := by
  induction h with
  | init => intro a ha; cases ha
  | addClient name login password phoneNumber _ ih =>
    rw [AddClient_accounts]; exact ih
  | addAccount phoneNumber balance _ ih => exact AddAccount_nonneg phoneNumber balance ih
  | addService name _ ih => rw [AddService_accounts]; exact ih
  | addAtm name location _ ih => rw [AddAtm_accounts]; exact ih
  | payForService nameOfService accountId login amount date _ ih =>
    exact PayForService_nonneg nameOfService accountId login amount date ih
  | transferToByAccountId targetAccountId login accountId amount date _ ih =>
    unfold TransferToByAccountId
    split
    · exact ih
    · split
      · exact ih
      · split
        · exact ih
        · exact transferTx_nonneg _ _ _ _ _ _ ih
  | transferToByPhoneNumber phoneNumber login accountId amount date _ ih =>
    unfold TransferToByPhoneNumber
    split
    · exact ih
    · split
      · exact ih
      · split
        · exact ih
        · split
          · exact ih
          · exact transferTx_nonneg _ _ _ _ _ _ ih
  | importListOfClients clients _ ih => rw [ImportListOfClients_accounts]; exact ih
  | importListOfAccounts accounts _ ih =>
    unfold ImportListOfAccounts
    split
    · exact ih
    · rename_i rows hrows
      exact importAccountsLoop_nonneg accounts _ rows ih hrows
  | importListOfATMs atms _ ih => exact ih
  | changeClientStatus phoneNumber status _ ih =>
    rw [ChangeClientStatus_accounts]; exact ih

/-- The database of `TestTransferToByAccountId` after its transfer is reachable, and its
two balances, 0 and 5000000, are not negative. -/
theorem balances_nonneg_of_reachable_witness :
    Reachable (TransferToByAccountId 2 "vasya1" 1 50000 "11-02-2026 10:00:00"
      transferTestStore).1 ∧
    ∀ a ∈ (TransferToByAccountId 2 "vasya1" 1 50000 "11-02-2026 10:00:00"
      transferTestStore).1.accounts, 0 ≤ a.balance :=
  have hreach : Reachable (TransferToByAccountId 2 "vasya1" 1 50000 "11-02-2026 10:00:00"
      transferTestStore).1 :=
    Reachable.transferToByAccountId 2 "vasya1" 1 50000 "11-02-2026 10:00:00"
      (Reachable.addAccount 5678 0
        (Reachable.addAccount 1234 50000
          (Reachable.addClient "Vasya" "vasya2" "1234" 5678
            (Reachable.addClient "Vasya" "vasya1" "1234" 1234 Reachable.init))))
  ⟨hreach, balances_nonneg_of_reachable _ hreach⟩

/-! ## The payer account of a transfer -/

/-- Claim C18 as stated fails: in the database of `TestTransferToByAccountId` account 1
belongs to client 1 ("vasya1"); `TransferToByAccountId(2, "vasya2", 1, 100)`, with the
login of client 2, returns nil and debits account 1. -/
theorem TransferToByAccountId_foreign_account_counterexample :
    (∃ c ∈ transferTestStore.clients, c.login = "vasya2" ∧ c.id = 2) ∧
    (∀ c ∈ transferTestStore.clients, c.login = "vasya2" → c.id ≠ 1) ∧
    (∃ a ∈ transferTestStore.accounts, a.id = 1 ∧ a.client_id = 1) ∧
    (TransferToByAccountId 2 "vasya2" 1 100 "11-02-2026 10:00:00" transferTestStore).2
      = none ∧
    balanceOf transferTestStore 1 = some 5000000 ∧
    balanceOf (TransferToByAccountId 2 "vasya2" 1 100 "11-02-2026 10:00:00"
      transferTestStore).1 1 = some 4990000 := by
  decide!

/-- Claim C18, amended: when `TransferToByAccountId` returns nil, the login is the login of
a client of the store, and the account with the id `accountId`, when there is one, is the
account that pays, whichever client owns it: its balance becomes the `float64` sum of the
balance and the `float64` product `-1 × (amount × 100)` (and then the `float64` sum of that
and `amount × 100` when it is the target account too).  When the balance is a whole number
`a` of minor units with `0 ≤ a ≤ 2 ^ 53` and the `float64` product `amount × 100` is a
whole number `x ≤ 2 ^ 53`, the balance goes down by `x` (and stays as it was when the
account is the target account too). -/
theorem TransferToByAccountId_debits_given_account (targetAccountId : Int) (login : String)
    (accountId : Int) (amount : Num) (date : String) (db db1 : Store)
    (h : TransferToByAccountId targetAccountId login accountId amount date db = (db1, none)) :
    (∃ c ∈ db.clients, c.login = login) ∧
    (∀ a, balanceOf db accountId = some a →
      balanceOf db1 accountId
        = some (if accountId = targetAccountId then
            Num.add (Num.add a.toFloat64
              (Num.mul (Num.fin (-1)) (Num.mul amount 100))).toFloat64 (Num.mul amount 100)
          else Num.add a.toFloat64 (Num.mul (Num.fin (-1)) (Num.mul amount 100)))) ∧
    (∀ a x : Int, balanceOf db accountId = some (Num.fin (a : ℚ)) →
      Num.mul amount 100 = Num.fin (x : ℚ) → 0 ≤ a → a ≤ 2 ^ 53 → x ≤ 2 ^ 53 →
      balanceOf db1 accountId
        = some (Num.fin ((if accountId = targetAccountId then a else a - x : Int) : ℚ))) := by
  obtain ⟨clientId, accounts1, accounts2, journal, hq, h1, h2, hj, rfl⟩ :=
    transferTx_ok (TransferToByAccountId_ok h)
  obtain ⟨c, hc, hcl, -⟩ := QueryRow_GetClientIdByLoginSQL hq
  have e1 := UpdateClientBalanceSQL_ok h1
  have e2 := UpdateClientBalanceSQL_ok h2
  subst e1; subst e2
  have hgen : ∀ a, balanceOf db accountId = some a →
      balanceOf { db with
          accounts := List.map (addToBalance targetAccountId (Num.mul amount 100))
            (List.map (addToBalance accountId
              (Num.mul (Num.fin (-1)) (Num.mul amount 100))) db.accounts),
          journal := journal } accountId
        = some (if accountId = targetAccountId then
            Num.add (Num.add a.toFloat64
              (Num.mul (Num.fin (-1)) (Num.mul amount 100))).toFloat64 (Num.mul amount 100)
          else Num.add a.toFloat64 (Num.mul (Num.fin (-1)) (Num.mul amount 100))) := by
    intro a ha
    unfold balanceOf at ha ⊢
    simp only [find?_map_addToBalance]
    cases hf : db.accounts.find? (fun r => r.id = accountId) with
    | none => simp [hf] at ha
    | some r =>
      have hid : r.id = accountId := by simpa using List.find?_some hf
      simp only [hf, Option.map_some', Option.some.injEq] at ha ⊢
      subst ha
      by_cases hEq : accountId = targetAccountId
      · simp only [addToBalance, hid, hEq, ↓reduceIte]
      · simp only [addToBalance, hid, hEq, ↓reduceIte]
  refine ⟨⟨c, hc, hcl⟩, hgen, ?_⟩
  intro a x ha hx ha0 ha53 hx53
  have hpos : 0 < x := by
    have := AddToJournalSQL_pos hj
    rw [hx] at this
    simpa using this
  rw [hgen _ ha, hx, Num.neg_one_mul_int x (by omega) (by omega),
    Num.add_int a (-x) (by omega) (by omega) (by omega) (by omega)]
  by_cases hEq : accountId = targetAccountId
  · rw [if_pos hEq, if_pos hEq,
      Num.add_int (a + -x) x (by omega) (by omega) (by omega) (by omega)]
    rw [show a + -x + x = a by omega]
  · rw [if_neg hEq, if_neg hEq]
    rfl

/-- The transfer of `TestTransferToByAccountId`: "vasya1" is a client and account 1 goes
from 5000000 to 0. -/
theorem TransferToByAccountId_debits_given_account_witness :
    (∃ c ∈ transferTestStore.clients, c.login = "vasya1") ∧
    (∀ a, balanceOf transferTestStore 1 = some a →
      balanceOf (TransferToByAccountId 2 "vasya1" 1 50000 "11-02-2026 10:00:00"
        transferTestStore).1 1
        = some (if (1 : Int) = 2 then
            Num.add (Num.add a.toFloat64
              (Num.mul (Num.fin (-1)) (Num.mul 50000 100))).toFloat64 (Num.mul 50000 100)
          else Num.add a.toFloat64 (Num.mul (Num.fin (-1)) (Num.mul 50000 100)))) ∧
    (∀ a x : Int, balanceOf transferTestStore 1 = some (Num.fin (a : ℚ)) →
      Num.mul 50000 100 = Num.fin (x : ℚ) → 0 ≤ a → a ≤ 2 ^ 53 → x ≤ 2 ^ 53 →
      balanceOf (TransferToByAccountId 2 "vasya1" 1 50000 "11-02-2026 10:00:00"
        transferTestStore).1 1
        = some (Num.fin ((if (1 : Int) = 2 then a else a - x : Int) : ℚ))) :=
  TransferToByAccountId_debits_given_account 2 "vasya1" 1 50000 "11-02-2026 10:00:00"
    transferTestStore _ (by decide!)

/-! ## Amounts that are not positive -/

theorem transferTx_nonpos (targetAccountId : Int) (login : String) (accountId : Int)
    {amount : Num} (target date : String) (db : Store) (hamount : amount ≤ 0) :
    ∃ err, transferTx targetAccountId login accountId amount target date db
      = (db, some err) := by
  cases hres : transferTx targetAccountId login accountId amount target date db with
  | mk db1 err =>
    cases err with
    | some e => rw [transferTx_error hres]; exact ⟨e, rfl⟩
    | none =>
      obtain ⟨clientId, accounts1, accounts2, journal, -, -, -, hj, -⟩ := transferTx_ok hres
      exact absurd (AddToJournalSQL_pos hj) (Num.mul_hundred_nonpos hamount)

/-- Claim C19: with an amount that is 0 or negative, `PayForService`,
`TransferToByAccountId` and `TransferToByPhoneNumber` always return an error, and the
accounts and the journal after the call are the accounts and the journal before it (for
the transfers the whole store is as before). -/
theorem nonpositive_amount_never_succeeds (login date : String) (accountId : Int)
    (amount : Num) (db : Store) (hamount : amount ≤ 0) :
    (∀ nameOfService : String, ∃ err db1,
      PayForService nameOfService accountId login amount date db = (db1, some err) ∧
      db1.accounts = db.accounts ∧ db1.journal = db.journal) ∧
    (∀ targetAccountId : Int, ∃ err,
      TransferToByAccountId targetAccountId login accountId amount date db
        = (db, some err)) ∧
    (∀ phoneNumber : Int, ∃ err,
      TransferToByPhoneNumber phoneNumber login accountId amount date db
        = (db, some err)) := by
  refine ⟨?_, ?_, ?_⟩
  · intro nameOfService
    unfold PayForService
    split
    · exact ⟨_, _, rfl, rfl, rfl⟩
    · split
      · exact ⟨_, _, rfl, rfl, rfl⟩
      · simp only
        split
        · exact ⟨_, _, rfl, rfl, rfl⟩
        · split
          · exact ⟨_, _, rfl, rfl, rfl⟩
          · rename_i journal hj
            exact absurd (AddToJournalSQL_pos hj) (Num.mul_hundred_nonpos hamount)
  · intro targetAccountId
    unfold TransferToByAccountId
    split
    · exact ⟨_, rfl⟩
    · split
      · exact ⟨_, rfl⟩
      · split
        · exact ⟨_, rfl⟩
        · exact transferTx_nonpos _ _ _ _ _ _ hamount
  · intro phoneNumber
    unfold TransferToByPhoneNumber
    split
    · exact ⟨_, rfl⟩
    · split
      · exact ⟨_, rfl⟩
      · split
        · exact ⟨_, rfl⟩
        · split
          · exact ⟨_, rfl⟩
          · exact transferTx_nonpos _ _ _ _ _ _ hamount

/-- The payment and the two transfers of the tests with the amount 0 and with a negative
amount: each call returns an error and changes neither accounts nor journal. -/
theorem nonpositive_amount_never_succeeds_witness :
    (∃ err db1,
      PayForService "Water" 1 "vasya" 0 "11-02-2026 10:00:00" payTestStore = (db1, some err) ∧
      db1.accounts = payTestStore.accounts ∧ db1.journal = payTestStore.journal) ∧
    (∃ err, TransferToByAccountId 2 "vasya1" 1 (Num.fin (-50000)) "11-02-2026 10:00:00"
      transferTestStore = (transferTestStore, some err)) ∧
    (∃ err, TransferToByPhoneNumber 5678 "vasya1" 1 (Num.fin (-50000)) "11-02-2026 10:00:00"
      transferTestStore = (transferTestStore, some err)) :=
  ⟨(nonpositive_amount_never_succeeds "vasya" "11-02-2026 10:00:00" 1 0 payTestStore
      (by decide!)).1 "Water",
   (nonpositive_amount_never_succeeds "vasya1" "11-02-2026 10:00:00" 1 (Num.fin (-50000))
      transferTestStore (by decide!)).2.1 2,
   (nonpositive_amount_never_succeeds "vasya1" "11-02-2026 10:00:00" 1 (Num.fin (-50000))
      transferTestStore (by decide!)).2.2 5678⟩

/-! ## The constraints of the schema as an invariant -/

theorem mem_insertRow {α : Type} (key : α → Int) (r : α) (l : List α) (x : α) :
    x ∈ insertRow key r l ↔ x = r ∨ x ∈ l := by
  rw [(insertRow_perm key r l).mem_iff, List.mem_cons]

theorem insertRow_sorted {α : Type} (key : α → Int) (r : α) :
    ∀ l : List α, l.Pairwise (fun a b => key a < key b) → (∀ x ∈ l, key x ≠ key r) →
      (insertRow key r l).Pairwise (fun a b => key a < key b) := by
  intro l
  induction l with
  | nil => intro _ _; exact List.pairwise_singleton _ _
  | cons x xs ih =>
    intro hp hne
    rw [List.pairwise_cons] at hp
    unfold insertRow
    split
    · rename_i hlt
      rw [List.pairwise_cons]
      refine ⟨?_, List.pairwise_cons.mpr hp⟩
      intro y hy
      rcases List.mem_cons.mp hy with rfl | hmem
      · exact hlt
      · exact lt_trans hlt (hp.1 y hmem)
    · rename_i hnlt
      have hxr : key x < key r :=
        lt_of_le_of_ne (not_lt.mp hnlt) (hne x (List.mem_cons_self _ _))
      rw [List.pairwise_cons]
      refine ⟨?_, ih hp.2 (fun y hy => hne y (List.mem_cons_of_mem _ hy))⟩
      intro y hy
      rcases (mem_insertRow key r xs y).mp hy with rfl | hmem
      · exact hxr
      · exact hp.1 y hmem

theorem insertRow_distinct {α β : Type} (key : α → Int) (col : α → β) (r : α) {l : List α}
    (hp : l.Pairwise (fun a b => col a ≠ col b)) (hne : ∀ x ∈ l, col x ≠ col r) :
    (insertRow key r l).Pairwise (fun a b => col a ≠ col b) := by
  rw [List.Perm.pairwise_iff (fun hxy => Ne.symm hxy) (insertRow_perm key r l),
    List.pairwise_cons]
  exact ⟨fun x hx heq => hne x hx heq.symm, hp⟩

theorem append_sorted {α : Type} (key : α → Int) {l : List α} {r : α}
    (hp : l.Pairwise (fun a b => key a < key b)) (hlt : ∀ x ∈ l, key x < key r) :
    (l ++ [r]).Pairwise (fun a b => key a < key b) := by
  rw [List.pairwise_append]
  refine ⟨hp, List.pairwise_singleton _ _, ?_⟩
  intro a ha b hb
  rw [List.mem_singleton] at hb
  subst hb
  exact hlt a ha

theorem append_distinct {α β : Type} (col : α → β) {l : List α} {r : α}
    (hp : l.Pairwise (fun a b => col a ≠ col b)) (hne : ∀ x ∈ l, col x ≠ col r) :
    (l ++ [r]).Pairwise (fun a b => col a ≠ col b) := by
  rw [List.pairwise_append]
  refine ⟨hp, List.pairwise_singleton _ _, ?_⟩
  intro a ha b hb
  rw [List.mem_singleton] at hb
  subst hb
  exact hne a ha

theorem UpdateClientBalanceSQL_sorted {accounts accounts1 : List AccountRow} {id : Int}
    {x : Num} (hp : accounts.Pairwise (fun a b => a.id < b.id))
    (h : UpdateClientBalanceSQL accounts id x = .ok accounts1) :
    accounts1.Pairwise (fun a b => a.id < b.id) := by
  rw [UpdateClientBalanceSQL_ok h, List.pairwise_map]
  exact hp.imp (fun hab => by simpa [addToBalance_id] using hab)

theorem AddAccountSQL_sorted {accounts accounts1 : List AccountRow} {seq seq1 clientId : Int}
    {balance : Num} (hp : accounts.Pairwise (fun a b => a.id < b.id))
    (h : AddAccountSQL accounts seq clientId balance = .ok (accounts1, seq1)) :
    accounts1.Pairwise (fun a b => a.id < b.id) := by
  unfold AddAccountSQL at h
  split at h
  · cases h
  · rename_i id hid
    split at h
    · cases h
    · split at h
      · cases h
        exact append_sorted (fun r : AccountRow => r.id) hp
          (fun a ha => nextRowid_fresh hid a.id
            (List.mem_cons_of_mem _ (List.mem_map.mpr ⟨a, ha, rfl⟩)))
      · cases h

theorem UpdateListOfAccountsWithClientIdsSQL_sorted {accounts accounts1 : List AccountRow}
    {e : AccountWithClientId} (hp : accounts.Pairwise (fun a b => a.id < b.id))
    (h : UpdateListOfAccountsWithClientIdsSQL accounts e = .ok accounts1) :
    accounts1.Pairwise (fun a b => a.id < b.id) := by
  unfold UpdateListOfAccountsWithClientIdsSQL at h
  split at h
  · cases h
  · split at h
    · cases h
    · split at h
      · cases h
        rw [List.pairwise_map]
        refine hp.imp ?_
        intro a b hab
        have ha : (if a.id = e.Id then
            ({ id := e.Id, client_id := e.ClientId, balance := e.Balance } : AccountRow)
            else a).id = a.id := by
          split
          · rename_i heq; exact heq.symm
          · rfl
        have hb : (if b.id = e.Id then
            ({ id := e.Id, client_id := e.ClientId, balance := e.Balance } : AccountRow)
            else b).id = b.id := by
          split
          · rename_i heq; exact heq.symm
          · rfl
        rw [ha, hb]
        exact hab
      · rename_i hany
        cases h
        apply insertRow_sorted (fun r : AccountRow => r.id) _ accounts hp
        intro x hx heq
        exact hany (List.any_eq_true.mpr ⟨x, hx, by simpa using heq⟩)

theorem importAccountsLoop_sorted : ∀ (entries : List AccountWithClientId)
    (accounts accounts1 : List AccountRow), accounts.Pairwise (fun a b => a.id < b.id) →
    importAccountsLoop entries accounts = .ok accounts1 →
    accounts1.Pairwise (fun a b => a.id < b.id) := by
  intro entries
  induction entries with
  | nil =>
    intro accounts accounts1 hp h
    simp only [importAccountsLoop, Except.ok.injEq] at h
    subst h
    exact hp
  | cons e es ih =>
    intro accounts accounts1 hp h
    unfold importAccountsLoop at h
    split at h
    · cases h
    · rename_i rows1 h1
      exact ih rows1 accounts1 (UpdateListOfAccountsWithClientIdsSQL_sorted hp h1) h

theorem UpdateListOfClientsSQL_sorted {rows rows1 : List ClientRow} {c : Client}
    (hp : rows.Pairwise (fun a b => a.id < b.id))
    (h : UpdateListOfClientsSQL rows c = .ok rows1) :
    rows1.Pairwise (fun a b => a.id < b.id) := by
  unfold UpdateListOfClientsSQL at h
  split at h
  · split at h
    · cases h
    · cases h
      rw [List.pairwise_map]
      refine hp.imp ?_
      intro a b hab
      have hid : ∀ r : ClientRow, (overwriteClient c r).id = r.id := by
        intro r
        unfold overwriteClient
        split <;> rfl
      rw [hid a, hid b]
      exact hab
  · split at h
    · cases h
    · rename_i hany
      split at h
      · cases h
      · cases h
        apply insertRow_sorted (fun r : ClientRow => r.id) _ rows hp
        intro x hx heq
        exact hany (List.any_eq_true.mpr ⟨x, hx, by simpa using heq⟩)

theorem importClientsLoop_wf : ∀ (clients : List Client) (rows rows1 : List ClientRow),
    rows.Pairwise (fun a b => a.id < b.id) → UniqueClients rows →
    importClientsLoop clients rows = .ok rows1 →
    rows1.Pairwise (fun a b => a.id < b.id) ∧ UniqueClients rows1 := by
  intro clients
  induction clients with
  | nil =>
    intro rows rows1 hp hu h
    simp only [importClientsLoop, Except.ok.injEq] at h
    subst h
    exact ⟨hp, hu⟩
  | cons c cs ih =>
    intro rows rows1 hp hu h
    unfold importClientsLoop at h
    split at h
    · cases h
    · rename_i rowsM hM
      exact ih rowsM rows1 (UpdateListOfClientsSQL_sorted hp hM)
        (UpdateListOfClientsSQL_unique hu hM) h

theorem AddToJournalSQL_wf {journal journal1 : List JournalRow} {date type target : String}
    {clientId : Int} {amount : Num}
    (hp : journal.Pairwise (fun a b => a.id < b.id)) (hpos : ∀ j ∈ journal, 0 < j.amount)
    (h : AddToJournalSQL journal date clientId type target amount = .ok journal1) :
    journal1.Pairwise (fun a b => a.id < b.id) ∧ ∀ j ∈ journal1, 0 < j.amount := by
  unfold AddToJournalSQL at h
  split at h
  · cases h
  · rename_i id hid
    split at h
    · cases h
    · split at h
      · rename_i hamount
        cases h
        refine ⟨append_sorted (fun r : JournalRow => r.id) hp
          (fun a ha => nextRowid_fresh hid a.id (List.mem_map.mpr ⟨a, ha, rfl⟩)), ?_⟩
        intro j hj
        rcases List.mem_append.mp hj with hmem | hmem
        · exact hpos j hmem
        · rw [List.mem_singleton] at hmem
          subst hmem
          exact hamount
      · cases h

theorem UpdateListOfATMsSQL_wf {atms : List AtmRow} (seq : Int) (e : ATM)
    (hp : atms.Pairwise (fun a b => a.id < b.id))
    (hl : atms.Pairwise (fun a b => a.location ≠ b.location)) :
    (UpdateListOfATMsSQL atms seq e).1.Pairwise (fun a b => a.id < b.id) ∧
    (UpdateListOfATMsSQL atms seq e).1.Pairwise (fun a b => a.location ≠ b.location) := by
  unfold UpdateListOfATMsSQL
  simp only
  constructor
  · apply insertRow_sorted (fun r : AtmRow => r.id) _ _ (hp.sublist (List.filter_sublist _))
    intro x hx
    have := (List.mem_filter.mp hx).2
    simp only [ne_eq, decide_eq_true_eq] at this
    exact this.1
  · apply insertRow_distinct (fun r : AtmRow => r.id) (fun r : AtmRow => r.location) _
      (hl.sublist (List.filter_sublist _))
    intro x hx
    have := (List.mem_filter.mp hx).2
    simp only [ne_eq, decide_eq_true_eq] at this
    exact this.2

theorem importATMsLoop_wf : ∀ (entries : List ATM) (st : List AtmRow × Int),
    st.1.Pairwise (fun a b => a.id < b.id) →
    st.1.Pairwise (fun a b => a.location ≠ b.location) →
    (importATMsLoop entries st).1.Pairwise (fun a b => a.id < b.id) ∧
    (importATMsLoop entries st).1.Pairwise (fun a b => a.location ≠ b.location) := by
  intro entries
  induction entries with
  | nil => intro st hp hl; exact ⟨hp, hl⟩
  | cons e es ih =>
    intro st hp hl
    unfold importATMsLoop
    obtain ⟨h1, h2⟩ := UpdateListOfATMsSQL_wf st.2 e hp hl
    exact ih _ h1 h2

theorem AddClient_wf (name login password : String) (phoneNumber : Int) {db : Store}
    (hwf : WF db) : WF (AddClient name login password phoneNumber db).1 := by
  unfold AddClient
  split
  · exact hwf
  · split
    · exact hwf
    · rename_i rows seq1 hrows
      obtain ⟨id, hid, hlogin, hphone, rfl, -, -⟩ := AddClientSQL_ok hrows
      obtain ⟨h1, h2, h3, hrest⟩ := hwf
      exact ⟨append_sorted (fun r : ClientRow => r.id) h1 hid,
        append_distinct (fun r : ClientRow => r.login) h2 hlogin,
        append_distinct (fun r : ClientRow => r.phone_number) h3 hphone, hrest⟩

theorem AddAccount_wf (phoneNumber balance : Int) {db : Store} (hwf : WF db) :
    WF (AddAccount phoneNumber balance db).1 := by
  have hnn := AddAccount_nonneg phoneNumber balance hwf.2.2.2.2.1
  unfold AddAccount at hnn ⊢
  split
  · exact hwf
  · rename_i clientId hq
    rw [hq] at hnn
    simp only at hnn ⊢
    split
    · exact hwf
    · rename_i rows seq1 hrows
      rw [hrows] at hnn
      obtain ⟨h1, h2, h3, h4, -, hrest⟩ := hwf
      exact ⟨h1, h2, h3, AddAccountSQL_sorted h4 hrows, hnn, hrest⟩

theorem AddService_wf (name : String) {db : Store} (hwf : WF db) :
    WF (AddService name db).1 := by
  unfold AddService
  split
  · exact hwf
  · split
    · exact hwf
    · rename_i rows hrows
      obtain ⟨h1, h2, h3, h4, h5, h6, h7, h8, h9, hrest⟩ := hwf
      unfold AddServiceSQL at hrows
      split at hrows
      · cases hrows
      · rename_i id hid
        split at hrows
        · cases hrows
        · rename_i hany
          cases hrows
          refine ⟨h1, h2, h3, h4, h5, h6, h7, ?_, ?_, hrest⟩
          · exact append_sorted (fun r : ServiceRow => r.id) h8
              (fun a ha => nextRowid_fresh hid a.id (List.mem_map.mpr ⟨a, ha, rfl⟩))
          · exact append_distinct (fun r : ServiceRow => r.name) h9
              (fun a ha heq => hany (List.any_eq_true.mpr ⟨a, ha, by simpa using heq⟩))

theorem AddAtm_wf (name location : String) {db : Store} (hwf : WF db) :
    WF (AddAtm name location db).1 := by
  unfold AddAtm
  split
  · exact hwf
  · split
    · exact hwf
    · rename_i rows seq hrows
      obtain ⟨h1, h2, h3, h4, h5, h6, h7, h8, h9, h10, h11⟩ := hwf
      unfold AddAtmSQL at hrows
      split at hrows
      · cases hrows
      · rename_i id hid
        split at hrows
        · cases hrows
        · rename_i hany
          cases hrows
          refine ⟨h1, h2, h3, h4, h5, h6, h7, h8, h9, ?_, ?_⟩
          · exact append_sorted (fun r : AtmRow => r.id) h10
              (fun a ha => nextRowid_fresh hid a.id
                (List.mem_cons_of_mem _ (List.mem_map.mpr ⟨a, ha, rfl⟩)))
          · exact append_distinct (fun r : AtmRow => r.location) h11
              (fun a ha heq => hany (List.any_eq_true.mpr ⟨a, ha, by simpa using heq⟩))

theorem PayForService_wf (nameOfService : String) (accountId : Int) (login : String)
    (amount : Num) (date : String) {db : Store} (hwf : WF db) :
    WF (PayForService nameOfService accountId login amount date db).1 := by
  unfold PayForService
  split
  · exact hwf
  · split
    · exact hwf
    · simp only
      split
      · exact hwf
      · rename_i accounts h1
        split
        · exact hwf
        · rename_i journal hj
          obtain ⟨c1, c2, c3, c4, c5, c6, c7, hrest⟩ := hwf
          obtain ⟨j1, j2⟩ := AddToJournalSQL_wf c6 c7 hj
          exact ⟨c1, c2, c3, UpdateClientBalanceSQL_sorted c4 h1,
            UpdateClientBalanceSQL_nonneg c5 h1, j1, j2, hrest⟩

theorem transferTx_wf (targetAccountId : Int) (login : String) (accountId : Int)
    (amount : Num) (target date : String) {db : Store} (hwf : WF db) :
    WF (transferTx targetAccountId login accountId amount target date db).1 := by
  cases hres : transferTx targetAccountId login accountId amount target date db with
  | mk db1 err =>
    cases err with
    | some e => rw [transferTx_error hres]; exact hwf
    | none =>
      obtain ⟨clientId, accounts1, accounts2, journal, -, h1, h2, hj, rfl⟩ := transferTx_ok hres
      obtain ⟨c1, c2, c3, c4, c5, c6, c7, hrest⟩ := hwf
      obtain ⟨j1, j2⟩ := AddToJournalSQL_wf c6 c7 hj
      exact ⟨c1, c2, c3,
        UpdateClientBalanceSQL_sorted (UpdateClientBalanceSQL_sorted c4 h1) h2,
        UpdateClientBalanceSQL_nonneg (UpdateClientBalanceSQL_nonneg c5 h1) h2, j1, j2, hrest⟩

theorem ChangeClientStatus_wf (phoneNumber : Int) (status : String) {db : Store}
    (hwf : WF db) : WF (ChangeClientStatus phoneNumber status db).1 := by
  unfold ChangeClientStatus
  split
  · exact hwf
  · obtain ⟨h1, h2, h3, hrest⟩ := hwf
    have hid : ∀ r : ClientRow, (if r.phone_number = phoneNumber
        then { r with status := status } else r).id = r.id := by
      intro r; split <;> rfl
    have hlogin : ∀ r : ClientRow, (if r.phone_number = phoneNumber
        then { r with status := status } else r).login = r.login := by
      intro r; split <;> rfl
    have hphone : ∀ r : ClientRow, (if r.phone_number = phoneNumber
        then { r with status := status } else r).phone_number = r.phone_number := by
      intro r; split <;> rfl
    refine ⟨?_, ?_, ?_, hrest⟩
    · show (ChangeClientStatusSQL db.clients status phoneNumber).Pairwise _
      unfold ChangeClientStatusSQL
      rw [List.pairwise_map]
      exact h1.imp (fun {a b} hab => by rw [hid a, hid b]; exact hab)
    · show (ChangeClientStatusSQL db.clients status phoneNumber).Pairwise _
      unfold ChangeClientStatusSQL
      rw [List.pairwise_map]
      exact h2.imp (fun {a b} hab => by rw [hlogin a, hlogin b]; exact hab)
    · show (ChangeClientStatusSQL db.clients status phoneNumber).Pairwise _
      unfold ChangeClientStatusSQL
      rw [List.pairwise_map]
      exact h3.imp (fun {a b} hab => by rw [hphone a, hphone b]; exact hab)

/-- Every store that can be reached from the new database satisfies the constraints of
the schema. -/
theorem wf_of_reachable (db : Store) (h : Reachable db) : WF db := by
  induction h with
  | init => decide
  | addClient name login password phoneNumber _ ih =>
    exact AddClient_wf name login password phoneNumber ih
  | addAccount phoneNumber balance _ ih => exact AddAccount_wf phoneNumber balance ih
  | addService name _ ih => exact AddService_wf name ih
  | addAtm name location _ ih => exact AddAtm_wf name location ih
  | payForService nameOfService accountId login amount date _ ih =>
    exact PayForService_wf nameOfService accountId login amount date ih
  | transferToByAccountId targetAccountId login accountId amount date _ ih =>
    unfold TransferToByAccountId
    split
    · exact ih
    · split
      · exact ih
      · split
        · exact ih
        · exact transferTx_wf _ _ _ _ _ _ ih
  | transferToByPhoneNumber phoneNumber login accountId amount date _ ih =>
    unfold TransferToByPhoneNumber
    split
    · exact ih
    · split
      · exact ih
      · split
        · exact ih
        · split
          · exact ih
          · exact transferTx_wf _ _ _ _ _ _ ih
  | importListOfClients clients _ ih =>
    unfold ImportListOfClients
    split
    · exact ih
    · rename_i rows hrows
      obtain ⟨h1, h2, h3, hrest⟩ := ih
      obtain ⟨hs, hu⟩ := importClientsLoop_wf clients _ rows h1 ⟨h2, h3⟩ hrows
      exact ⟨hs, hu.1, hu.2, hrest⟩
  | importListOfAccounts accounts _ ih =>
    unfold ImportListOfAccounts
    split
    · exact ih
    · rename_i rows hrows
      obtain ⟨h1, h2, h3, h4, h5, hrest⟩ := ih
      exact ⟨h1, h2, h3, importAccountsLoop_sorted accounts _ rows h4 hrows,
        importAccountsLoop_nonneg accounts _ rows h5 hrows, hrest⟩
  | importListOfATMs atms _ ih =>
    obtain ⟨h1, h2, h3, h4, h5, h6, h7, h8, h9, h10, h11⟩ := ih
    obtain ⟨a1, a2⟩ := importATMsLoop_wf atms (_, _) h10 h11
    exact ⟨h1, h2, h3, h4, h5, h6, h7, h8, h9, a1, a2⟩
  | changeClientStatus phoneNumber status _ ih =>
    exact ChangeClientStatus_wf phoneNumber status ih

/-! ## The sum of all balances -/

/-- Claim C21, the failing calls: in the database of `TestTransferToByAccountId` no account
has the id 99 and the balances add up to 5000000; `TransferToByAccountId(2, "vasya1", 99,
50000)` and `TransferToByPhoneNumber(5678, "vasya1", 99, 50000)` return nil, debit nothing
and credit account 2, so that the balances add up to 10000000 afterwards. -/
theorem transfer_from_missing_account_creates_money :
    (∀ a ∈ transferTestStore.accounts, a.id ≠ 99) ∧
    totalBalance transferTestStore = 5000000 ∧
    (TransferToByAccountId 2 "vasya1" 99 50000 "11-02-2026 10:00:00" transferTestStore).2
      = none ∧
    totalBalance (TransferToByAccountId 2 "vasya1" 99 50000 "11-02-2026 10:00:00"
      transferTestStore).1 = 10000000 ∧
    (TransferToByPhoneNumber 5678 "vasya1" 99 50000 "11-02-2026 10:00:00"
      transferTestStore).2 = none ∧
    totalBalance (TransferToByPhoneNumber 5678 "vasya1" 99 50000 "11-02-2026 10:00:00"
      transferTestStore).1 = 10000000 := by
  decide!

end IBank
